import Mathlib

/-!
Verification development for the CodexMonitor workspace session multiplexer.

The definitions below are a shallow embedding of the Rust sources:
  * `src/src-tauri/src/backend/app_server.rs` (path normalization, thread-id
    extraction, thread/list result walk, workspace resolution, the stdout
    reader dispatch loop, and request sending), and
  * `src/src-tauri/src/bin/codex_monitor_daemon.rs` (control-plane connection
    handling, worktree rename, and workspace settings updates).

Strings that the Rust code manipulates byte-wise (filesystem paths inside
`normalize_root_path` and `resolve_workspace_for_cwd`) are modelled as lists
of natural numbers (the byte values); all other strings are Lean `String`s.
Stateful operations are modelled as pure state-passing functions; external
effects (git commands, process spawns, channel sends) are represented either
by an explicit environment of outcomes or by an emitted action/output trace.
-/

namespace CodexMonitor

/-- Byte view of a Lean string literal: the code points of its characters.
All paths appearing in the claims are ASCII, where this agrees with UTF-8. -/
def strBytes (s : String) : List Nat :=
  s.toList.map Char.toNat

/-- `u8::is_ascii_alphabetic`. -/
def isAsciiAlphaB (b : Nat) : Bool :=
  (65 ≤ b && b ≤ 90) || (97 ≤ b && b ≤ 122)

/-- Rust `u8::to_ascii_lowercase` / per-byte action of `str::to_ascii_lowercase`. -/
def asciiLowerB (b : Nat) : Nat :=
  if 65 ≤ b ∧ b ≤ 90 then b + 32 else b

/-- `str::to_ascii_lowercase` on the byte view. -/
def lowerBytes (l : List Nat) : List Nat :=
  l.map asciiLowerB

/-- `value.replace('\\', "/")` on the byte view (92 is backslash, 47 slash). -/
def replaceBackslashes (l : List Nat) : List Nat :=
  l.map (fun b => if b = 92 then 47 else b)

/-- `str::trim_end_matches('/')` on the byte view: drop every trailing 47. -/
def trimTrailingSlashes : List Nat → List Nat
  | [] => []
  | b :: rest =>
    match trimTrailingSlashes rest with
    | [] => if b = 47 then [] else [b]
    | r => b :: r

/-- The drive-letter test in `normalize_root_path`: at least three bytes,
an ASCII letter, then b':'` (58), then `'/'` (47). -/
def isDrivePathB : List Nat → Bool
  | a :: b :: c :: _ => isAsciiAlphaB a && b == 58 && c == 47
  | _ => false

/-- `normalize_root_path` from `app_server.rs` (lines 46-74), on the byte view.
Step order follows the source: replace backslashes, trim trailing slashes,
rewrite the `//?/unc/` and `//?/`-or-`//./` prefixes (matched on the
ASCII-lowercased string, rewriting the original-case string), then lowercase
drive-letter paths and `//`-prefixed paths. -/
def normalizeRootPath (value : List Nat) : List Nat :=
  let normalized := trimTrailingSlashes (replaceBackslashes value)
  if normalized = [] then [] else
  let lower := lowerBytes normalized
  let normalized2 :=
    if (strBytes "//?/unc/").isPrefixOf lower then
      47 :: 47 :: normalized.drop 8
    else if (strBytes "//?/").isPrefixOf lower || (strBytes "//./").isPrefixOf lower then
      normalized.drop 4
    else normalized
  if normalized2 = [] then [] else
  if isDrivePathB normalized2 || (strBytes "//").isPrefixOf normalized2 then
    lowerBytes normalized2
  else normalized2

/-! ## JSON values

`serde_json::Value`, with numbers as integers (the only numeric accesses the
embedded code performs are `as_u64`). Objects are association lists; `get`
returns the first binding of a key. -/

inductive Json where
  | null
  | bool (b : Bool)
  | num (n : Int)
  | str (s : String)
  | arr (items : List Json)
  | obj (fields : List (String × Json))

/-- Object key lookup (first binding wins). -/
def lookupField : List (String × Json) → String → Option Json
  | [], _ => none
  | (k, v) :: rest, key => if k = key then some v else lookupField rest key

/-- `Value::get(key)`: `Some` only on objects holding the key. -/
def Json.get : Json → String → Option Json
  | .obj fields, key => lookupField fields key
  | _, _ => none

/-- `Value::as_str`. -/
def Json.asStr : Json → Option String
  | .str s => some s
  | _ => none

/-- `Value::as_u64`. -/
def Json.asU64 : Json → Option Nat
  | .num n => if 0 ≤ n then some n.toNat else none
  | _ => none

/-- The inner helper of `extract_thread_id` (`app_server.rs` lines 26-40):
in a container, the first of `threadId`, `thread_id` that is a string,
else a string at `thread.id`. -/
def extractFromContainer : Option Json → Option String
  | none => none
  | some container =>
    match ((container.get "threadId").orElse
        (fun _ => container.get "thread_id")).bind Json.asStr with
    | some s => some s
    | none => ((container.get "thread").bind (fun t => t.get "id")).bind Json.asStr

/-- `extract_thread_id` (`app_server.rs` lines 25-44): search `params`, then
`result`. -/
def extractThreadId (value : Json) : Option String :=
  match extractFromContainer (value.get "params") with
  | some s => some s
  | none => extractFromContainer (value.get "result")

/-- One entry collected from a `thread/list` result. -/
structure ThreadListEntry where
  threadId : String
  cwd : Option String
deriving Repr, DecidableEq

theorem sizeOf_lookupField {fields : List (String × Json)} {key : String} {v : Json}
    (h : lookupField fields key = some v) : sizeOf v < sizeOf fields := by
  induction fields with
  | nil => simp [lookupField] at h
  | cons p rest ih =>
    obtain ⟨k, w⟩ := p
    simp only [lookupField] at h
    split at h
    · cases h
      simp only [List.cons.sizeOf_spec, Prod.mk.sizeOf_spec]
      omega
    · have := ih h
      simp only [List.cons.sizeOf_spec, Prod.mk.sizeOf_spec]
      omega

/-- The recursive worker of `extract_thread_entries_from_thread_list_result`
(`app_server.rs` lines 83-130): arrays recurse into every element; objects
contribute an entry when an id is present (first of `threadId`, `thread_id`,
`id`, then nested `thread.id`), with `cwd` from `cwd` or nested `thread.cwd`,
and additionally recurse into array values at the keys `threads`, `items`,
`results`, `data` (the source iterates that key list; the four key cases are
unrolled here). -/
def collectEntries : Json → List ThreadListEntry
  | .arr values => (values.attach.map (fun v => collectEntries v.1)).flatten
  | .obj fields =>
    let cwd : Option String :=
      match (lookupField fields "cwd").bind Json.asStr with
      | some s => some s
      | none =>
        ((lookupField fields "thread").bind (fun t => t.get "cwd")).bind Json.asStr
    let threadId : Option String :=
      match (((lookupField fields "threadId").orElse
            (fun _ => lookupField fields "thread_id")).orElse
            (fun _ => lookupField fields "id")).bind Json.asStr with
      | some s => some s
      | none =>
        ((lookupField fields "thread").bind (fun t => t.get "id")).bind Json.asStr
    let here : List ThreadListEntry :=
      match threadId with
      | some t => [⟨t, cwd⟩]
      | none => []
    here
      ++ (match h : lookupField fields "threads" with
          | some (Json.arr vs) => (vs.attach.map (fun v => collectEntries v.1)).flatten
          | _ => [])
      ++ (match h : lookupField fields "items" with
          | some (Json.arr vs) => (vs.attach.map (fun v => collectEntries v.1)).flatten
          | _ => [])
      ++ (match h : lookupField fields "results" with
          | some (Json.arr vs) => (vs.attach.map (fun v => collectEntries v.1)).flatten
          | _ => [])
      ++ (match h : lookupField fields "data" with
          | some (Json.arr vs) => (vs.attach.map (fun v => collectEntries v.1)).flatten
          | _ => [])
  | _ => []
termination_by j => sizeOf j
decreasing_by
  all_goals simp_wf
  all_goals
    first
    | (have h2 := List.sizeOf_lt_of_mem v.2
       omega)
    | (have h1 := sizeOf_lookupField h
       have h2 := List.sizeOf_lt_of_mem v.2
       simp only [Json.arr.sizeOf_spec] at h1
       omega)

/-- `extract_thread_entries_from_thread_list_result` (`app_server.rs`
lines 82-137): walk the `result` value if present. -/
def extractThreadEntriesFromThreadListResult (value : Json) : List ThreadListEntry :=
  match value.get "result" with
  | some result => collectEntries result
  | none => []

/-! ## Workspace resolution by cwd -/

/-- The match test inside `resolve_workspace_for_cwd` (`app_server.rs`
lines 149-161): a non-empty root matches when it equals the normalized cwd
or is a proper prefix of it followed by a `/` byte. -/
def cwdRootMatches (normalizedCwd root : List Nat) : Bool :=
  !root.isEmpty &&
    (root == normalizedCwd ||
      (decide (root.length < normalizedCwd.length) && root.isPrefixOf normalizedCwd &&
        normalizedCwd.get? root.length == some 47))

/-- One comparison step of Rust `Iterator::max_by_key`: keep the running
maximum, preferring the NEW element on ties (Rust returns the last maximal
element). -/
def maxByKeyStep {α : Type} (acc : Option (α × Nat)) (x : α × Nat) : Option (α × Nat) :=
  match acc with
  | none => some x
  | some a => if x.2 < a.2 then some a else some x

/-- Rust `Iterator::max_by_key`: the maximum by key, the LAST one on ties. -/
def maxByKeyLast {α : Type} (l : List (α × Nat)) : Option (α × Nat) :=
  l.foldl maxByKeyStep none

/-- `resolve_workspace_for_cwd` (`app_server.rs` lines 139-165). The
`workspace_roots` map is modelled as an association list in iteration order
(the source iterates a `HashMap`, whose order is arbitrary). -/
def resolveWorkspaceForCwd (cwd : List Nat)
    (workspaceRoots : List (String × List Nat)) : Option String :=
  let normalizedCwd := normalizeRootPath cwd
  if normalizedCwd = [] then none
  else
    let candidates := workspaceRoots.filterMap (fun p =>
      if cwdRootMatches normalizedCwd p.2 then some (p.1, p.2.length) else none)
    (maxByKeyLast candidates).map (fun p => p.1)

/-! ## Association-list maps and key sets

`HashMap` and `HashSet` are modelled as association lists / lists of keys in
iteration order; `insert` replaces in place, `remove` drops all bindings of
the key. -/

def lookupA {κ α : Type} [DecidableEq κ] : List (κ × α) → κ → Option α
  | [], _ => none
  | (k, v) :: rest, key => if k = key then some v else lookupA rest key

def insertA {κ α : Type} [DecidableEq κ] : List (κ × α) → κ → α → List (κ × α)
  | [], key, v => [(key, v)]
  | (k, w) :: rest, key, v =>
    if k = key then (key, v) :: rest else (k, w) :: insertA rest key v

def eraseA {κ α : Type} [DecidableEq κ] (l : List (κ × α)) (key : κ) : List (κ × α) :=
  l.filter (fun p => decide (p.1 ≠ key))

def insertKey {κ : Type} [DecidableEq κ] (l : List κ) (key : κ) : List κ :=
  if key ∈ l then l else l ++ [key]

/-! ## Session state and the stdout reader dispatch

`WorkspaceSession` (`app_server.rs` lines 205-218). The one-shot senders in
`pending` are modelled by the set of request ids whose slot is still live; a
delivery into a slot appears as a `resolvePending` output. -/

/-- `RequestContext` (`app_server.rs` lines 184-188). -/
structure RequestContext where
  workspaceId : String
  method : String
deriving Repr, DecidableEq

/-- Mutable state of a `WorkspaceSession`. -/
structure SessionState where
  nextId : Nat
  pending : List Nat
  requestContext : List (Nat × RequestContext)
  threadWorkspace : List (String × String)
  backgroundThreadCallbacks : List String
  workspaceIds : List String
  workspaceRoots : List (String × List Nat)
deriving Repr

/-- Observable effects of one reader-loop iteration: an event emitted to the
event sink, a value sent to a background-thread subscriber channel, or a
value delivered into a pending one-shot slot. -/
inductive Output where
  | emitEvent (workspaceId : String) (message : Json)
  | toBackground (threadId : String) (message : Json)
  | resolvePending (id : Nat) (message : Json)

/-- One line read from the subprocess stdout: blank, failed to parse as JSON
(with the serde error text and the raw line), or parsed. -/
inductive LineInput where
  | blank
  | parseFail (err raw : String)
  | parseOk (value : Json)

/-- `is_global_workspace_notification` (`app_server.rs` lines 167-172). -/
def isGlobalWorkspaceNotification (method : String) : Bool :=
  method == "account/updated" || method == "account/rateLimits/updated" ||
    method == "account/login/completed"

/-- `should_broadcast_global_workspace_notification` (`app_server.rs`
lines 174-182). -/
def shouldBroadcastGlobalWorkspaceNotification (methodName : Option String)
    (threadId : Option String) (requestWorkspace : Option String) : Bool :=
  (match methodName with
   | some m => isGlobalWorkspaceNotification m
   | none => false) &&
    threadId.isNone && requestWorkspace.isNone

/-- The fan-out-or-single-emit block of the reader (`app_server.rs`
lines 676-698 and 720-742): on an empty attached set a single event goes to
the routed workspace, otherwise one event per attached workspace id. -/
def broadcastOutputs (workspaceIds : List String) (routedWorkspaceId : String)
    (value : Json) : List Output :=
  if workspaceIds.isEmpty then [.emitEvent routedWorkspaceId value]
  else workspaceIds.map (fun w => .emitEvent w value)

/-- The notification-delivery block of the reader (`app_server.rs`
lines 659-699 and 703-744, two identical copies in the source): background
capture first, then global fan-out or a single routed event. -/
def notificationOutputs (backgroundThreadCallbacks : List String)
    (workspaceIds : List String) (methodName : Option String)
    (threadId : Option String) (requestWorkspace : Option String)
    (routedWorkspaceId : String) (value : Json) : List Output :=
  let broadcastPart : List Output :=
    if shouldBroadcastGlobalWorkspaceNotification methodName threadId requestWorkspace then
      broadcastOutputs workspaceIds routedWorkspaceId value
    else [.emitEvent routedWorkspaceId value]
  match threadId with
  | some tid =>
    if backgroundThreadCallbacks.contains tid then [.toBackground tid value]
    else broadcastPart
  | none => broadcastPart

/-- One iteration of the stdout reader loop of `spawn_workspace_session`
(`app_server.rs` lines 568-745), as a pure transition on the session state,
emitting the observable outputs of that iteration. `fallbackWorkspaceId` is
the owner workspace id captured at spawn. -/
def processLine (fallbackWorkspaceId : String) (st : SessionState) (input : LineInput) :
    SessionState × List Output :=
  match input with
  | .blank => (st, [])
  | .parseFail err raw =>
    (st,
     [.emitEvent fallbackWorkspaceId (Json.obj
        [("method", Json.str "codex/parseError"),
         ("params", Json.obj [("error", Json.str err), ("raw", Json.str raw)])])])
  | .parseOk value =>
    let maybeId := (value.get "id").bind Json.asU64
    let hasMethod := (value.get "method").isSome
    let hasResultOrError := (value.get "result").isSome || (value.get "error").isSome
    let methodName := (value.get "method").bind Json.asStr
    let threadId := extractThreadId value
    -- lines 596-605: pop the request context for an id-carrying response
    let popped : Option String × Option String × List (Nat × RequestContext) :=
      match maybeId with
      | some id =>
        if hasResultOrError then
          match lookupA st.requestContext id with
          | some ctx => (some ctx.workspaceId, some ctx.method, eraseA st.requestContext id)
          | none => (none, none, st.requestContext)
        else (none, none, st.requestContext)
      | none => (none, none, st.requestContext)
    let requestWorkspace := popped.1
    let requestMethod := popped.2.1
    let requestContext1 := popped.2.2
    -- lines 607-615: bind the extracted thread id to the request's workspace
    let threadWorkspace1 :=
      match requestWorkspace, threadId with
      | some ws, some tid => insertA st.threadWorkspace tid ws
      | _, _ => st.threadWorkspace
    -- lines 616-631: walk a thread/list result and bind entries by cwd
    let threadWorkspace2 :=
      if requestMethod = some "thread/list" then
        (extractThreadEntriesFromThreadListResult value).foldl
          (fun acc entry =>
            match entry.cwd.bind
                (fun c => resolveWorkspaceForCwd (strBytes c) st.workspaceRoots) with
            | some ws => insertA acc entry.threadId ws
            | none => acc)
          threadWorkspace1
      else threadWorkspace1
    -- lines 633-646: compute the routed workspace id
    let routedWorkspaceId :=
      match threadId with
      | some tid =>
        ((lookupA threadWorkspace2 tid).orElse (fun _ => requestWorkspace)).getD
          fallbackWorkspaceId
      | none => requestWorkspace.getD fallbackWorkspaceId
    -- lines 648-652: drop the binding of an archived thread
    let threadWorkspace3 :=
      if methodName = some "thread/archived" then
        match threadId with
        | some tid => eraseA threadWorkspace2 tid
        | none => threadWorkspace2
      else threadWorkspace2
    -- lines 654-744: deliver
    match maybeId with
    | some id =>
      if hasResultOrError then
        ({ st with pending := st.pending.filter (fun j => j != id),
                   requestContext := requestContext1,
                   threadWorkspace := threadWorkspace3 },
         if st.pending.contains id then [.resolvePending id value] else [])
      else if hasMethod then
        ({ st with requestContext := requestContext1, threadWorkspace := threadWorkspace3 },
         notificationOutputs st.backgroundThreadCallbacks st.workspaceIds methodName
           threadId requestWorkspace routedWorkspaceId value)
      else
        ({ st with pending := st.pending.filter (fun j => j != id),
                   requestContext := requestContext1,
                   threadWorkspace := threadWorkspace3 },
         if st.pending.contains id then [.resolvePending id value] else [])
    | none =>
      if hasMethod then
        ({ st with requestContext := requestContext1, threadWorkspace := threadWorkspace3 },
         notificationOutputs st.backgroundThreadCallbacks st.workspaceIds methodName
           threadId requestWorkspace routedWorkspaceId value)
      else
        ({ st with requestContext := requestContext1, threadWorkspace := threadWorkspace3 },
         [])

/-- Processing a whole sequence of stdout lines, accumulating outputs. -/
def processLines (fallbackWorkspaceId : String) (st : SessionState) :
    List LineInput → SessionState × List Output
  | [] => (st, [])
  | l :: rest =>
    let step := processLine fallbackWorkspaceId st l
    let restRun := processLines fallbackWorkspaceId step.1 rest
    (restRun.1, step.2 ++ restRun.2)

/-- The sweep after stdout EOF (`app_server.rs` lines 747-749): clear both
`pending` and `request_context`, dropping (cancelling) every live slot. -/
def sweepSession (st : SessionState) : SessionState :=
  { st with pending := [], requestContext := [] }

/-! ## Sending a request -/

/-- `REQUEST_TIMEOUT` (`app_server.rs` line 203), in seconds. -/
def requestTimeoutSecs : Nat := 300

/-- How the await of `send_request_for_workspace` resolves: the stdin write
failed, a value was delivered into the slot by the reader, the slot sender
was dropped (shutdown sweep), or the 300 s timeout expired. -/
inductive RequestOutcome where
  | writeFailed (error : String)
  | delivered (value : Json)
  | canceled
  | timedOut

/-- `WorkspaceSession::send_request_for_workspace` (`app_server.rs`
lines 269-312) as a pure transition: allocate the id, register the
workspace, insert the pending slot and the request context, bind an outbound
thread id, then resolve per the awaited outcome. In the `delivered` case the
removal of `pending`/`request_context` is the reader's doing
(`processLine`), not this function's. -/
def sendRequestForWorkspace (st : SessionState) (workspaceId method : String)
    (params : Json) (outcome : RequestOutcome) : SessionState × Except String Json :=
  let id := st.nextId
  let st1 := { st with
    nextId := id + 1,
    workspaceIds := insertKey st.workspaceIds workspaceId }
  let st2 := { st1 with
    pending := insertKey st1.pending id,
    requestContext := insertA st1.requestContext id ⟨workspaceId, method⟩ }
  let boundThreadWorkspace :=
    match extractThreadId (Json.obj [("params", params)]) with
    | some tid => insertA st2.threadWorkspace tid workspaceId
    | none => st2.threadWorkspace
  let st3 := { st2 with threadWorkspace := boundThreadWorkspace }
  match outcome with
  | .writeFailed e =>
    ({ st3 with pending := st3.pending.filter (fun j => j != id),
                requestContext := eraseA st3.requestContext id },
     .error e)
  | .delivered v => (st3, .ok v)
  | .canceled => (st3, .error "request canceled")
  | .timedOut =>
    ({ st3 with pending := st3.pending.filter (fun j => j != id),
                requestContext := eraseA st3.requestContext id },
     .error ("request timed out after " ++ toString requestTimeoutSecs ++ " seconds"))

/-! ## Control-plane connection handling

`handle_client` in `codex_monitor_daemon.rs` (lines 2603-2697): per-line
processing of one TCP connection. RPC dispatch of authenticated requests
(`handle_rpc_request`) is represented by a `dispatch` output. -/

/-- `parse_auth_token` (`codex_monitor_daemon.rs` lines 2220-2229). -/
def parseAuthToken (params : Json) : Option String :=
  match params with
  | .str value => some value
  | .obj map => (lookupField map "token").bind Json.asStr
  | _ => none

/-- `build_error_response` (`codex_monitor_daemon.rs` lines 2188-2197):
`None` when the incoming message carried no id. -/
def buildErrorResponse (id : Option Nat) (message : String) : Option Json :=
  match id with
  | some i =>
    some (Json.obj [("id", Json.num i),
                    ("error", Json.obj [("message", Json.str message)])])
  | none => none

/-- `build_result_response` (`codex_monitor_daemon.rs` lines 2199-2204). -/
def buildResultResponse (id : Option Nat) (result : Json) : Option Json :=
  match id with
  | some i => some (Json.obj [("id", Json.num i), ("result", result)])
  | none => none

/-- Per-connection state: whether the token gate has been passed and whether
the broadcast-forwarder task is running for this connection. -/
structure ConnState where
  authenticated : Bool
  subscribed : Bool
deriving Repr, DecidableEq

/-- State of a fresh connection (`handle_client` lines 2624-2631): with no
configured token the connection starts authenticated and subscribed. -/
def initialConnState (token : Option String) : ConnState :=
  { authenticated := token.isNone, subscribed := token.isNone }

/-- Observable effects of processing one control-plane line. -/
inductive ConnOut where
  | respond (response : Json)
  | dispatch (method : String) (params : Json) (id : Option Nat)

/-- One iteration of the `handle_client` read loop (lines 2633-2690):
blank lines and unparseable lines are skipped silently; before
authentication only `auth` is honoured; after it, requests go to the RPC
dispatch table. -/
def connStep (token : Option String) (st : ConnState) (input : LineInput) :
    ConnState × List ConnOut :=
  match input with
  | .blank => (st, [])
  | .parseFail _ _ => (st, [])
  | .parseOk message =>
    let id := (message.get "id").bind Json.asU64
    let method := ((message.get "method").bind Json.asStr).getD ""
    let params := (message.get "params").getD Json.null
    if !st.authenticated then
      if method ≠ "auth" then
        (st, (buildErrorResponse id "unauthorized").toList.map ConnOut.respond)
      else
        let expected := token.getD ""
        let provided := (parseAuthToken params).getD ""
        if expected ≠ provided then
          (st, (buildErrorResponse id "invalid token").toList.map ConnOut.respond)
        else
          ({ authenticated := true, subscribed := true },
           (buildResultResponse id (Json.obj [("ok", Json.bool true)])).toList.map
             ConnOut.respond)
    else
      (st, [.dispatch method params id])

/-! ## Daemon workspace registry

`DaemonState` and its worktree/settings operations
(`codex_monitor_daemon.rs`). Sessions are identified by opaque handles
(`Nat`); git commands, directory creation and process spawns are given as an
environment of outcomes, and each externally visible action is recorded in
an action trace. Persistence (`write_workspaces`) is modelled as reliable
storage of the record list. -/

/-- `WorktreeInfo`. -/
structure WorktreeInfo where
  branch : String
deriving Repr, DecidableEq

/-- `WorkspaceKind`. -/
inductive WorkspaceKind where
  | main
  | worktree
deriving Repr, DecidableEq

/-- `WorkspaceKind::is_worktree`. -/
def WorkspaceKind.isWorktree : WorkspaceKind → Bool
  | .worktree => true
  | .main => false

/-- `WorkspaceSettings`. -/
structure WorkspaceSettings where
  codexHome : Option String
  codexArgs : Option String
  worktreeSetupScript : Option String
  sortOrder : Option Nat
deriving Repr, DecidableEq

/-- `WorkspaceEntry`. -/
structure WorkspaceEntry where
  id : String
  name : String
  path : String
  codexBin : Option String
  kind : WorkspaceKind
  parentId : Option String
  worktree : Option WorktreeInfo
  settings : WorkspaceSettings
deriving Repr, DecidableEq

/-- The two fields of the global `AppSettings` read by the modelled
operations (the remaining fields do not flow into them). -/
structure AppSettings where
  codexBin : Option String
  codexArgs : Option String
deriving Repr, DecidableEq

/-- The daemon state owned by `DaemonState`: the workspace map, the
session map (handles standing in for `Arc<WorkspaceSession>`), the global
settings, and the record list most recently written to `workspaces.json`. -/
structure DaemonState where
  dataDir : String
  workspaces : List (String × WorkspaceEntry)
  sessions : List (String × Nat)
  appSettings : AppSettings
  persisted : List WorkspaceEntry
deriving Repr

/-- Externally visible actions of the daemon operations, in order. -/
inductive DaemonAction where
  | gitUniqueBranchProbe
  | gitBranchRename (old new : String)
  | gitWorktreeMove (src dst : String)
  | createDir (path : String)
  | killSession (workspaceId : String)
  | spawnSession (workspaceId : String)
deriving Repr, DecidableEq

/-- `str::trim`: drop leading and trailing whitespace. -/
def strTrim (s : String) : String :=
  String.mk
    (((s.toList.dropWhile Char.isWhitespace).reverse.dropWhile Char.isWhitespace).reverse)

/-- `normalize_setup_script` (`codex_monitor_daemon.rs` lines 69-75). -/
def normalizeSetupScript (script : Option String) : Option String :=
  match script with
  | some value => if strTrim value = "" then none else some value
  | none => none

/-- `sanitize_worktree_name` (`codex_monitor_daemon.rs` lines 2046-2061):
keep ASCII alphanumerics and `-`/`_`/`.`, replace everything else by `-`,
trim leading and trailing `-`, defaulting to `worktree`. -/
def sanitizeWorktreeName (branch : String) : String :=
  let mapped := branch.toList.map (fun ch =>
    if ch.isAlphanum || ch = '-' || ch = '_' || ch = '.' then ch else '-')
  let trimmed := ((mapped.dropWhile (fun c => c = '-')).reverse.dropWhile
    (fun c => c = '-')).reverse
  if trimmed.isEmpty then "worktree" else String.mk trimmed

/-- `unique_worktree_path_for_rename` (`codex_monitor_daemon.rs`
lines 2082-2104), with filesystem existence supplied as a predicate.
Paths are joined with `/`. -/
def uniqueWorktreePathForRename (pathExists : String → Bool)
    (baseDir name currentPath : String) : Except String String :=
  let candidate := baseDir ++ "/" ++ name
  if candidate = currentPath then .ok candidate
  else if !pathExists candidate then .ok candidate
  else
    match (List.range' 2 998).find? (fun index =>
        let next := baseDir ++ "/" ++ name ++ "-" ++ toString index
        next == currentPath || !pathExists next) with
    | some index => .ok (baseDir ++ "/" ++ name ++ "-" ++ toString index)
    | none => .error ("Failed to find an available worktree path under " ++ baseDir ++ ".")

/-- Outcomes of the external steps of `rename_worktree`, in program order:
the `unique_branch_name` computation (its git probes summarised by one trace
entry), `git branch -m old new`, `create_dir_all`, filesystem existence for
the target-path search, `git worktree move`, and the respawn. -/
structure RenameEnv where
  uniqueBranch : Except String String
  branchRename : Except String Unit
  createWorktreeDir : Except String Unit
  pathExists : String → Bool
  worktreeMove : Except String Unit
  spawn : Except String Nat

/-- `DaemonState::rename_worktree` (`codex_monitor_daemon.rs`
lines 535-685) as a pure transition, returning the new state, the action
trace, and the result (the updated record on success). -/
def renameWorktree (env : RenameEnv) (st : DaemonState) (id branch : String) :
    DaemonState × List DaemonAction × Except String WorkspaceEntry :=
  let trimmed := strTrim branch
  if trimmed = "" then (st, [], .error "Branch name is required.")
  else
    match lookupA st.workspaces id with
    | none => (st, [], .error "workspace not found")
    | some entry =>
      if !entry.kind.isWorktree then (st, [], .error "Not a worktree workspace.")
      else
        match entry.parentId with
        | none => (st, [], .error "worktree parent not found")
        | some parentId =>
          match lookupA st.workspaces parentId with
          | none => (st, [], .error "worktree parent not found")
          | some parent =>
            match entry.worktree with
            | none => (st, [], .error "worktree metadata missing")
            | some wt =>
              let oldBranch := wt.branch
              if oldBranch = trimmed then (st, [], .error "Branch name is unchanged.")
              else
                match env.uniqueBranch with
                | .error e => (st, [.gitUniqueBranchProbe], .error e)
                | .ok finalBranch =>
                  if finalBranch = oldBranch then
                    (st, [.gitUniqueBranchProbe], .error "Branch name is unchanged.")
                  else
                    match env.branchRename with
                    | .error e =>
                      (st, [.gitUniqueBranchProbe, .gitBranchRename oldBranch finalBranch],
                       .error e)
                    | .ok _ =>
                      let worktreeRoot := st.dataDir ++ "/worktrees/" ++ parent.id
                      let trace0 := [DaemonAction.gitUniqueBranchProbe,
                                     .gitBranchRename oldBranch finalBranch,
                                     .createDir worktreeRoot]
                      match env.createWorktreeDir with
                      | .error e =>
                        (st, trace0, .error ("Failed to create worktree directory: " ++ e))
                      | .ok _ =>
                        let safeName := sanitizeWorktreeName finalBranch
                        match uniqueWorktreePathForRename env.pathExists worktreeRoot
                            safeName entry.path with
                        | .error e => (st, trace0, .error e)
                        | .ok nextPath =>
                          -- lines 608-685: map update, persist, respawn
                          let afterMove :
                              List DaemonAction →
                                DaemonState × List DaemonAction × Except String WorkspaceEntry :=
                            fun trace =>
                              let entry2 := { entry with
                                name := finalBranch,
                                path := nextPath,
                                worktree := some ⟨finalBranch⟩ }
                              let ws2 := insertA st.workspaces id entry2
                              let st2 := { st with
                                workspaces := ws2,
                                persisted := ws2.map Prod.snd }
                              if (lookupA st2.sessions entry2.id).isSome then
                                let sessions1 := eraseA st2.sessions entry2.id
                                match env.spawn with
                                | .ok h =>
                                  ({ st2 with sessions := insertA sessions1 entry2.id h },
                                   trace ++ [.killSession entry2.id, .spawnSession entry2.id],
                                   .ok entry2)
                                | .error _ =>
                                  ({ st2 with sessions := sessions1 },
                                   trace ++ [.killSession entry2.id], .ok entry2)
                              else (st2, trace, .ok entry2)
                          if nextPath ≠ entry.path then
                            match env.worktreeMove with
                            | .error e =>
                              (st,
                               trace0 ++ [.gitWorktreeMove entry.path nextPath,
                                          .gitBranchRename finalBranch oldBranch],
                               .error e)
                            | .ok _ =>
                              afterMove (trace0 ++ [.gitWorktreeMove entry.path nextPath])
                          else afterMove trace0

/-- `DaemonState::update_workspace_codex_bin` (`codex_monitor_daemon.rs`
lines 963-994): store the override, persist the list, and report the record;
the session map is only read (for the `connected` flag), never changed. -/
def updateWorkspaceCodexBin (st : DaemonState) (id : String)
    (codexBin : Option String) :
    DaemonState × List DaemonAction × Except String WorkspaceEntry :=
  match lookupA st.workspaces id with
  | none => (st, [], .error "workspace not found")
  | some entry =>
    let entry2 := { entry with codexBin := codexBin }
    let ws2 := insertA st.workspaces id entry2
    ({ st with workspaces := ws2, persisted := ws2.map Prod.snd }, [], .ok entry2)

/-- External collaborators of `update_workspace_settings`: the
`CODEX_HOME`/argv resolvers (defined in `codex_home.rs` / `codex_args.rs`,
which are not among the sources, hence taken as parameters) and the spawner
(handle per workspace id). -/
structure SettingsEnv where
  resolveCodexHome : WorkspaceEntry → Option WorkspaceEntry → Option String
  resolveCodexArgs : WorkspaceEntry → Option WorkspaceEntry → AppSettings → Option String
  spawn : String → Except String Nat

/-- One iteration of the child-respawn loop of `update_workspace_settings`
(`codex_monitor_daemon.rs` lines 874-926): skip disconnected children and
children whose resolved `CODEX_HOME` and argv did not change; otherwise
spawn a replacement (skipping the child on spawn failure), swap it in, and
kill the old session. -/
def childRespawnStep (env : SettingsEnv) (appSettings : AppSettings)
    (previousEntry entrySnapshot : WorkspaceEntry)
    (acc : List (String × Nat) × List DaemonAction) (child : WorkspaceEntry) :
    List (String × Nat) × List DaemonAction :=
  if (lookupA acc.1 child.id).isSome then
    let previousChildHome := env.resolveCodexHome child (some previousEntry)
    let nextChildHome := env.resolveCodexHome child (some entrySnapshot)
    let previousChildArgs := env.resolveCodexArgs child (some previousEntry) appSettings
    let nextChildArgs := env.resolveCodexArgs child (some entrySnapshot) appSettings
    if previousChildHome = nextChildHome ∧ previousChildArgs = nextChildArgs then acc
    else
      match env.spawn child.id with
      | .error _ => acc
      | .ok h =>
        (insertA acc.1 child.id h,
         acc.2 ++ [DaemonAction.spawnSession child.id, .killSession child.id])
  else acc

/-- The whole child-respawn loop (`codex_monitor_daemon.rs` lines 871-927). -/
def respawnChildren (env : SettingsEnv) (appSettings : AppSettings)
    (previousEntry entrySnapshot : WorkspaceEntry)
    (childEntries : List WorkspaceEntry)
    (start : List (String × Nat) × List DaemonAction) :
    List (String × Nat) × List DaemonAction :=
  childEntries.foldl (childRespawnStep env appSettings previousEntry entrySnapshot) start

/-- `DaemonState::update_workspace_settings` (`codex_monitor_daemon.rs`
lines 770-961) as a pure transition: normalize the setup script, store the
new settings, respawn the target session when its raw `codex_home` or
`codex_args` changed (rolling the record back if the spawn fails), respawn
every connected child worktree whose resolved inputs changed (failures
skipped), propagate a changed setup script of a Main to its children, and
persist. -/
def updateWorkspaceSettings (env : SettingsEnv) (st : DaemonState) (id : String)
    (settings0 : WorkspaceSettings) :
    DaemonState × List DaemonAction × Except String WorkspaceEntry :=
  let settings := { settings0 with
    worktreeSetupScript := normalizeSetupScript settings0.worktreeSetupScript }
  match lookupA st.workspaces id with
  | none => (st, [], .error "workspace not found")
  | some previousEntry =>
    let entrySnapshot := { previousEntry with settings := settings }
    let ws1 := insertA st.workspaces id entrySnapshot
    let parentEntry := entrySnapshot.parentId.bind (fun pid => lookupA ws1 pid)
    let childEntries := (ws1.filter (fun p => p.2.parentId == some id)).map Prod.snd
    let codexHomeChanged := previousEntry.settings.codexHome ≠ settings.codexHome
    let codexArgsChanged := previousEntry.settings.codexArgs ≠ settings.codexArgs
    let scriptChanged :=
      previousEntry.settings.worktreeSetupScript ≠ settings.worktreeSetupScript
    let connected := (lookupA st.sessions id).isSome
    -- lines 829-870: target respawn with rollback on spawn failure
    let targetStep : Except String (List (String × Nat) × List DaemonAction) :=
      if connected ∧ (codexHomeChanged ∨ codexArgsChanged) then
        match env.spawn id with
        | .error e => .error e
        | .ok h =>
          let hadOld := (lookupA st.sessions entrySnapshot.id).isSome
          .ok (insertA st.sessions entrySnapshot.id h,
               [DaemonAction.spawnSession entrySnapshot.id] ++
                 (if hadOld then [.killSession entrySnapshot.id] else []))
      else .ok (st.sessions, [])
    match targetStep with
    | .error e =>
      ({ st with workspaces := insertA ws1 previousEntry.id previousEntry }, [], .error e)
    | .ok (sessions1, trace1) =>
      -- lines 871-927: respawn connected children whose resolved inputs changed
      let childrenStep : List (String × Nat) × List DaemonAction :=
        if codexHomeChanged ∨ codexArgsChanged then
          respawnChildren env st.appSettings previousEntry entrySnapshot childEntries
            (sessions1, trace1)
        else (sessions1, trace1)
      let (sessions2, trace2) := childrenStep
      -- lines 928-942: propagate a Main's changed setup script to children
      let ws2 :=
        if scriptChanged ∧ ¬entrySnapshot.kind.isWorktree then
          childEntries.foldl
            (fun acc child =>
              match lookupA acc child.id with
              | some c =>
                insertA acc child.id { c with settings := { c.settings with
                  worktreeSetupScript := entrySnapshot.settings.worktreeSetupScript } }
              | none => acc)
            ws1
        else ws1
      -- lines 944-948: persist
      ({ st with workspaces := ws2, sessions := sessions2,
                 persisted := ws2.map Prod.snd },
       trace2, .ok entrySnapshot)

/-- The routed workspace id computed at `app_server.rs` lines 633-646, for a
message that routes as a notification (such a message never pops a request
context, so the `request_workspace` alternative of the source is `None`
there): the thread binding if present, else the owner fallback. -/
def routedNotificationWorkspaceId (fallbackWorkspaceId : String) (st : SessionState)
    (value : Json) : String :=
  match extractThreadId value with
  | some tid => (lookupA st.threadWorkspace tid).getD fallbackWorkspaceId
  | none => fallbackWorkspaceId

/-- The whole `handle_client` read loop over a sequence of lines. -/
def connSteps (token : Option String) (st : ConnState) :
    List LineInput → ConnState × List ConnOut
  | [] => (st, [])
  | l :: rest =>
    let step := connStep token st l
    let restRun := connSteps token step.1 rest
    (restRun.1, step.2 ++ restRun.2)

/-! ## Map lemmas and sanity checks -/

/-- Sanity check mirroring the unit test
`normalize_root_path_normalizes_windows_namespace_unc_paths`. -/
theorem normalizeRootPath_unc_check :
    normalizeRootPath (strBytes "\\\\?\\UNC\\SERVER\\Share\\Repo\\") =
      strBytes "//server/share/repo" := by decide

/-- Sanity checks for drive-letter lowering, trailing-slash trimming, and the
device-namespace rewrite. -/
theorem normalizeRootPath_basic_checks :
    normalizeRootPath (strBytes "C:\\Dev\\Codex") = strBytes "c:/dev/codex" ∧
    normalizeRootPath (strBytes "/tmp/codex/") = strBytes "/tmp/codex" ∧
    normalizeRootPath (strBytes "//?/C:/Dev") = strBytes "c:/dev" := by
  refine ⟨by decide, by decide, by decide⟩

/-- Sanity checks mirroring the `resolve_workspace_for_cwd_*` unit tests. -/
theorem resolveWorkspaceForCwd_checks :
    resolveWorkspaceForCwd (strBytes "c:/dev/codex")
      [("ws-1", normalizeRootPath (strBytes "C:\\Dev\\Codex"))] = some "ws-1" ∧
    resolveWorkspaceForCwd (strBytes "/tmp/codex/subdir/project")
      [("ws-parent", strBytes "/tmp/codex"), ("ws-child", strBytes "/tmp/codex/subdir")] =
      some "ws-child" ∧
    resolveWorkspaceForCwd (strBytes "/elsewhere") [("ws-1", strBytes "/tmp/codex")] =
      none := by
  refine ⟨by decide, by decide, by decide⟩


theorem lookupA_eraseA {κ α : Type} [DecidableEq κ] (l : List (κ × α)) (k : κ) :
    lookupA (eraseA l k) k = none := by
  induction l with
  | nil => rfl
  | cons p rest ih =>
    by_cases h : p.1 = k
    · simpa [eraseA, h] using ih
    · simpa [eraseA, lookupA, h] using ih

theorem not_mem_filter_ne_self (l : List Nat) (i : Nat) :
    i ∉ l.filter (fun j => j != i) := by
  simp [List.mem_filter]

theorem lookupA_insertA_self {κ α : Type} [DecidableEq κ] (l : List (κ × α)) (k : κ)
    (v : α) : lookupA (insertA l k v) k = some v := by
  induction l with
  | nil => simp [insertA, lookupA]
  | cons p rest ih =>
    obtain ⟨k1, v1⟩ := p
    by_cases h : k1 = k
    · simp [insertA, lookupA, h]
    · simp [insertA, lookupA, h, ih]

theorem lookupA_insertA_ne {κ α : Type} [DecidableEq κ] (l : List (κ × α)) (k k2 : κ)
    (v : α) (h : k ≠ k2) : lookupA (insertA l k v) k2 = lookupA l k2 := by
  induction l with
  | nil => simp [insertA, lookupA, h]
  | cons p rest ih =>
    obtain ⟨k1, v1⟩ := p
    by_cases h1 : k1 = k
    · simp [insertA, lookupA, h1, h]
    · simp [insertA, lookupA, h1, ih]

theorem mem_insertA {κ α : Type} [DecidableEq κ] {p : κ × α} {l : List (κ × α)}
    {k : κ} {v : α} (h : p ∈ insertA l k v) : p = (k, v) ∨ p ∈ l := by
  induction l with
  | nil => simpa [insertA] using h
  | cons q rest ih =>
    obtain ⟨k1, v1⟩ := q
    by_cases h1 : k1 = k
    · simp [insertA, h1] at h
      rcases h with h | h
      · exact Or.inl (by simp [h])
      · exact Or.inr (by simp [h])
    · simp [insertA, h1] at h
      rcases h with h | h
      · exact Or.inr (by simp [h])
      · rcases ih h with h2 | h2
        · exact Or.inl h2
        · exact Or.inr (by simp [h2])

theorem mem_filter_ne_of_mem {l : List Nat} {i j : Nat} (h : j ∈ l.filter (fun k => k != i)) :
    j ∈ l := (List.mem_filter.mp h).1

/-- Recognizer for a slot delivery to request id `i`. -/
def isResolveFor (i : Nat) : Output → Bool
  | .resolvePending j _ => j == i
  | _ => false

theorem mem_notificationOutputs {o : Output} {bg ws : List String}
    {mn tid rw : Option String} {routed : String} {v : Json}
    (h : o ∈ notificationOutputs bg ws mn tid rw routed v) :
    (∃ w m, o = .emitEvent w m) ∨ (∃ t m, o = .toBackground t m) := by
  unfold notificationOutputs broadcastOutputs at h
  rcases tid with _ | t
  · dsimp at h
    split at h
    · split at h
      · simp at h
        exact Or.inl ⟨_, _, h⟩
      · obtain ⟨w, _, hw⟩ := List.mem_map.mp h
        exact Or.inl ⟨_, _, hw.symm⟩
    · simp at h
      exact Or.inl ⟨_, _, h⟩
  · dsimp at h
    split at h
    · simp at h
      exact Or.inr ⟨_, _, h⟩
    · split at h
      · split at h
        · simp at h
          exact Or.inl ⟨_, _, h⟩
        · obtain ⟨w, _, hw⟩ := List.mem_map.mp h
          exact Or.inl ⟨_, _, hw.symm⟩
      · simp at h
        exact Or.inl ⟨_, _, h⟩

theorem countP_notificationOutputs_resolve (i : Nat) (bg ws : List String)
    (mn tid rw : Option String) (routed : String) (v : Json) :
    (notificationOutputs bg ws mn tid rw routed v).countP (isResolveFor i) = 0 := by
  rw [List.countP_eq_zero]
  intro o ho
  rcases mem_notificationOutputs ho with ⟨w, m, rfl⟩ | ⟨t, m, rfl⟩ <;> simp [isResolveFor]

/-- Shape of one reader iteration with respect to `pending`: either it is a
slot-delivery iteration for some id (removing that id), or it delivers no
slot and leaves `pending` unchanged. -/
theorem processLine_pending_shape (f : String) (st : SessionState) (l : LineInput) :
    (∃ id v,
      (processLine f st l).2 =
        (if st.pending.contains id then [Output.resolvePending id v] else []) ∧
      (processLine f st l).1.pending = st.pending.filter (fun j => j != id)) ∨
    ((∀ i, (processLine f st l).2.countP (isResolveFor i) = 0) ∧
      (processLine f st l).1.pending = st.pending) := by
  cases l with
  | blank => exact Or.inr ⟨fun i => rfl, rfl⟩
  | parseFail e r => exact Or.inr ⟨fun i => by simp [processLine, isResolveFor], rfl⟩
  | parseOk value =>
    cases hid : (value.get "id").bind Json.asU64 with
    | none =>
      refine Or.inr ⟨fun i => ?_, ?_⟩ <;>
        cases hm : (value.get "method").isSome <;>
          simp [processLine, hid, hm, countP_notificationOutputs_resolve]
    | some id =>
      cases hre : (value.get "result").isSome || (value.get "error").isSome with
      | true =>
        refine Or.inl ⟨id, value, ?_, ?_⟩ <;> simp [processLine, hid, hre]
      | false =>
        cases hm : (value.get "method").isSome with
        | true =>
          refine Or.inr ⟨fun i => ?_, ?_⟩ <;>
            simp [processLine, hid, hre, hm, countP_notificationOutputs_resolve]
        | false =>
          refine Or.inl ⟨id, value, ?_, ?_⟩ <;> simp [processLine, hid, hre, hm]

theorem processLine_resolve_zero_of_not_pending (f : String) (st : SessionState)
    (l : LineInput) (i : Nat) (h : i ∉ st.pending) :
    (processLine f st l).2.countP (isResolveFor i) = 0 ∧
      i ∉ (processLine f st l).1.pending := by
  rcases processLine_pending_shape f st l with ⟨id, v, hout, hpend⟩ | ⟨hz, hpend⟩
  · constructor
    · rw [hout]
      by_cases hc : id ∈ st.pending
      · have hne : (id == i) = false := by
          simp only [beq_eq_false_iff_ne]
          exact fun e => h (e ▸ hc)
        simp [hc, List.countP_cons, isResolveFor, hne]
      · simp [hc]
    · rw [hpend]
      exact fun hin => h (mem_filter_ne_of_mem hin)
  · exact ⟨hz i, hpend ▸ h⟩

theorem processLine_resolve_once (f : String) (st : SessionState) (l : LineInput) (i : Nat) :
    (processLine f st l).2.countP (isResolveFor i) ≤ 1 ∧
    (1 ≤ (processLine f st l).2.countP (isResolveFor i) →
      i ∉ (processLine f st l).1.pending) := by
  rcases processLine_pending_shape f st l with ⟨id, v, hout, hpend⟩ | ⟨hz, hpend⟩
  · constructor
    · rw [hout]
      by_cases hc : id ∈ st.pending <;>
        by_cases he : (id == i) = true <;>
          simp [hc, he, List.countP_cons, isResolveFor]
    · intro h1
      rw [hpend]
      have he : id = i := by
        by_contra hne
        rw [hout] at h1
        have : (id == i) = false := by simpa [beq_eq_false_iff_ne] using hne
        by_cases hc : id ∈ st.pending <;>
          simp [hc, List.countP_cons, isResolveFor, this] at h1
      exact he ▸ not_mem_filter_ne_self st.pending id
  · rw [hz i]
    exact ⟨by omega, by omega⟩

theorem processLines_resolve_zero (f : String) (ls : List LineInput) :
    ∀ (st : SessionState) (i : Nat), i ∉ st.pending →
      (processLines f st ls).2.countP (isResolveFor i) = 0 := by
  induction ls with
  | nil => intro st i _; rfl
  | cons l rest ih =>
    intro st i h
    have h1 := processLine_resolve_zero_of_not_pending f st l i h
    simp [processLines, List.countP_append, h1.1, ih _ i h1.2]

theorem processLines_resolve_at_most_once (f : String) (ls : List LineInput) :
    ∀ (st : SessionState) (i : Nat),
      (processLines f st ls).2.countP (isResolveFor i) ≤ 1 := by
  induction ls with
  | nil => intro st i; simp [processLines]
  | cons l rest ih =>
    intro st i
    have hle := processLine_resolve_once f st l i
    simp only [processLines, List.countP_append]
    by_cases hz : (processLine f st l).2.countP (isResolveFor i) = 0
    · rw [hz]
      simpa using ih (processLine f st l).1 i
    · have hnp := hle.2 (by omega)
      have h0 := processLines_resolve_zero f rest (processLine f st l).1 i hnp
      omega

theorem asciiLowerB_idem (b : Nat) : asciiLowerB (asciiLowerB b) = asciiLowerB b := by
  unfold asciiLowerB
  split_ifs <;> omega

theorem asciiLowerB_eq_slash {b : Nat} : asciiLowerB b = 47 ↔ b = 47 := by
  unfold asciiLowerB
  split_ifs <;> omega

theorem asciiLowerB_eq_backslash {b : Nat} : asciiLowerB b = 92 ↔ b = 92 := by
  unfold asciiLowerB
  split_ifs <;> omega

theorem lowerBytes_idem (l : List Nat) : lowerBytes (lowerBytes l) = lowerBytes l := by
  induction l with
  | nil => rfl
  | cons b rest ih =>
    simp only [lowerBytes, List.map_cons, List.cons.injEq] at ih ⊢
    exact ⟨asciiLowerB_idem b, ih⟩

theorem mem_replaceBackslashes_ne {b : Nat} {l : List Nat}
    (h : b ∈ replaceBackslashes l) : b ≠ 92 := by
  obtain ⟨a, _, rfl⟩ := List.mem_map.mp h
  by_cases ha : a = 92 <;> simp [ha]

theorem replaceBackslashes_of_not_mem {l : List Nat} (h : 92 ∉ l) :
    replaceBackslashes l = l := by
  induction l with
  | nil => rfl
  | cons b rest ih =>
    have hb : b ≠ 92 := fun e => h (by simp [e])
    have hr : 92 ∉ rest := fun e => h (by simp [e])
    simp only [replaceBackslashes, List.map_cons] at ih ⊢
    rw [ih hr, if_neg hb]

theorem mem_trimTrailingSlashes {b : Nat} :
    ∀ {l : List Nat}, b ∈ trimTrailingSlashes l → b ∈ l := by
  intro l
  induction l with
  | nil => intro h; simp [trimTrailingSlashes] at h
  | cons c rest ih =>
    intro h
    simp only [trimTrailingSlashes] at h
    cases htr : trimTrailingSlashes rest with
    | nil =>
      rw [htr] at h
      by_cases hc : c = 47
      · simp [hc] at h
      · simp [hc] at h
        simp [h]
    | cons d ds =>
      rw [htr] at h
      simp only [List.mem_cons] at h
      rcases h with h | h
      · simp [h]
      · have : b ∈ trimTrailingSlashes rest := by
          rw [htr]
          simp [h]
        exact List.mem_cons_of_mem c (ih this)

theorem getLast?_trimTrailingSlashes (l : List Nat) :
    (trimTrailingSlashes l).getLast? ≠ some 47 := by
  induction l with
  | nil => simp [trimTrailingSlashes]
  | cons c rest ih =>
    simp only [trimTrailingSlashes]
    cases htr : trimTrailingSlashes rest with
    | nil =>
      by_cases hc : c = 47
      · simp [hc]
      · simp [hc]
    | cons d ds =>
      rw [htr] at ih
      rw [List.getLast?_cons_cons]
      exact ih

theorem trimTrailingSlashes_of_getLast {l : List Nat} (h : l.getLast? ≠ some 47) :
    trimTrailingSlashes l = l := by
  induction l with
  | nil => rfl
  | cons c rest ih =>
    cases rest with
    | nil =>
      have hc : c ≠ 47 := fun e => h (by simp [e])
      simp [trimTrailingSlashes, hc]
    | cons d ds =>
      have hrest : (d :: ds).getLast? ≠ some 47 := by
        rw [← List.getLast?_cons_cons (a := c)]
        exact h
      have ih2 := ih hrest
      rw [show trimTrailingSlashes (c :: d :: ds) =
          (match trimTrailingSlashes (d :: ds) with
           | [] => if c = 47 then [] else [c]
           | r => c :: r) from rfl, ih2]

theorem getLast?_lowerBytes_ne {l : List Nat} (h : l.getLast? ≠ some 47) :
    (lowerBytes l).getLast? ≠ some 47 := by
  intro he
  rw [lowerBytes, List.getLast?_map] at he
  cases hg : l.getLast? with
  | none => rw [hg] at he; cases he
  | some b =>
    rw [hg] at he
    simp only [Option.map_some'] at he
    have hb : b = 47 := asciiLowerB_eq_slash.mp (Option.some.inj he)
    exact h (hb ▸ hg)

theorem not_mem_lowerBytes_backslash {l : List Nat} (h : 92 ∉ l) :
    92 ∉ lowerBytes l := by
  intro he
  obtain ⟨a, ha, he2⟩ := List.mem_map.mp he
  exact h (asciiLowerB_eq_backslash.mp he2 ▸ ha)

/-- Step 5 of `normalize_root_path` preserves the structural facts the
idempotence argument needs. -/
theorem normalize_final_step_shape (n2 : List Nat) (h1 : n2 ≠ []) (h2 : 92 ∉ n2)
    (h3 : n2.getLast? ≠ some 47) :
    (if (isDrivePathB n2 || (strBytes "//").isPrefixOf n2) = true then lowerBytes n2
     else n2) ≠ [] ∧
    92 ∉ (if (isDrivePathB n2 || (strBytes "//").isPrefixOf n2) = true then lowerBytes n2
     else n2) ∧
    (if (isDrivePathB n2 || (strBytes "//").isPrefixOf n2) = true then lowerBytes n2
     else n2).getLast? ≠ some 47 ∧
    ((isDrivePathB (if (isDrivePathB n2 || (strBytes "//").isPrefixOf n2) = true then
        lowerBytes n2 else n2) ||
      (strBytes "//").isPrefixOf (if (isDrivePathB n2 ||
        (strBytes "//").isPrefixOf n2) = true then lowerBytes n2 else n2)) = true →
      lowerBytes (if (isDrivePathB n2 || (strBytes "//").isPrefixOf n2) = true then
        lowerBytes n2 else n2) =
        (if (isDrivePathB n2 || (strBytes "//").isPrefixOf n2) = true then lowerBytes n2
         else n2)) := by
  by_cases hcond : (isDrivePathB n2 || (strBytes "//").isPrefixOf n2) = true
  · simp only [hcond, if_true]
    refine ⟨?_, not_mem_lowerBytes_backslash h2, getLast?_lowerBytes_ne h3,
      fun _ => lowerBytes_idem n2⟩
    simp [lowerBytes, h1]
  · simp only [hcond, if_false]
    exact ⟨h1, h2, h3, fun hct => absurd hct hcond⟩

/-- If a length-`k` prefix ending in a slash matches the lowercased string,
dropping `k` bytes leaves a nonempty remainder with the original last byte
(the string itself cannot end in a slash). -/
theorem drop_prefix_facts (n p : List Nat) (k : Nat) (hp : p.length = k)
    (hplast : p.getLast? = some 47) (hpre : p <+: lowerBytes n)
    (h3n : n.getLast? ≠ some 47) :
    n.drop k ≠ [] ∧ (n.drop k).getLast? = n.getLast? := by
  have hlen : k ≤ n.length := by
    have := hpre.length_le
    simpa [lowerBytes, hp] using this
  have hne : n.length ≠ k := by
    intro he
    have heq : p = lowerBytes n := hpre.eq_of_length (by simp [lowerBytes, hp, he])
    exact getLast?_lowerBytes_ne h3n (heq ▸ hplast)
  have hd : n.drop k ≠ [] := by
    intro he
    rw [List.drop_eq_nil_iff] at he
    omega
  refine ⟨hd, ?_⟩
  conv_rhs => rw [← List.take_append_drop k n]
  rw [List.getLast?_append_of_ne_nil _ hd]

/-- Structure of every `normalize_root_path` output: empty, or nonempty with
no backslash, no trailing slash, and already lowercased whenever it is a
drive path or starts with `//`. -/
theorem normalizeRootPath_shape (x : List Nat) :
    normalizeRootPath x = [] ∨
    (normalizeRootPath x ≠ [] ∧ 92 ∉ normalizeRootPath x ∧
     (normalizeRootPath x).getLast? ≠ some 47 ∧
     ((isDrivePathB (normalizeRootPath x) ||
       (strBytes "//").isPrefixOf (normalizeRootPath x)) = true →
       lowerBytes (normalizeRootPath x) = normalizeRootPath x)) := by
  set n := trimTrailingSlashes (replaceBackslashes x) with hn
  have h2n : 92 ∉ n := fun hm =>
    mem_replaceBackslashes_ne (mem_trimTrailingSlashes (hn ▸ hm)) rfl
  have h3n : n.getLast? ≠ some 47 := hn ▸ getLast?_trimTrailingSlashes _
  have hunf : normalizeRootPath x =
      (if n = [] then [] else
       if (strBytes "//?/unc/").isPrefixOf (lowerBytes n) = true then
         (if (47 :: 47 :: n.drop 8 : List Nat) = [] then [] else
          if (isDrivePathB (47 :: 47 :: n.drop 8) ||
              (strBytes "//").isPrefixOf (47 :: 47 :: n.drop 8)) = true then
            lowerBytes (47 :: 47 :: n.drop 8)
          else 47 :: 47 :: n.drop 8)
       else if ((strBytes "//?/").isPrefixOf (lowerBytes n) ||
           (strBytes "//./").isPrefixOf (lowerBytes n)) = true then
         (if n.drop 4 = [] then [] else
          if (isDrivePathB (n.drop 4) ||
              (strBytes "//").isPrefixOf (n.drop 4)) = true then
            lowerBytes (n.drop 4)
          else n.drop 4)
       else
         (if n = [] then [] else
          if (isDrivePathB n || (strBytes "//").isPrefixOf n) = true then lowerBytes n
          else n)) := by
    simp only [normalizeRootPath, ← hn]
    by_cases hnil : n = []
    · simp [hnil]
    · rw [if_neg hnil, if_neg hnil]
      split
      · rfl
      · split
        · rfl
        · rfl
  rw [hunf]
  by_cases hnil : n = []
  · left
    rw [if_pos hnil]
  rw [if_neg hnil]
  by_cases hA : (strBytes "//?/unc/").isPrefixOf (lowerBytes n) = true
  · rw [if_pos hA]
    have hdrop := drop_prefix_facts n (strBytes "//?/unc/") 8 rfl rfl
      (List.isPrefixOf_iff_prefix.mp hA) h3n
    have hn2ne : (47 :: 47 :: n.drop 8 : List Nat) ≠ [] := by simp
    have hn2mem : 92 ∉ (47 :: 47 :: n.drop 8 : List Nat) := by
      intro hm
      rcases List.mem_cons.mp hm with hm | hm
      · omega
      rcases List.mem_cons.mp hm with hm | hm
      · omega
      · exact h2n (List.mem_of_mem_drop hm)
    have hn2last : (47 :: 47 :: n.drop 8 : List Nat).getLast? ≠ some 47 := by
      have e1 : (47 :: 47 :: n.drop 8 : List Nat) = [47, 47] ++ n.drop 8 := rfl
      rw [e1, List.getLast?_append_of_ne_nil _ hdrop.1, hdrop.2]
      exact h3n
    rw [if_neg hn2ne]
    exact Or.inr (normalize_final_step_shape _ hn2ne hn2mem hn2last)
  rw [if_neg hA]
  by_cases hB : ((strBytes "//?/").isPrefixOf (lowerBytes n) ||
      (strBytes "//./").isPrefixOf (lowerBytes n)) = true
  · rw [if_pos hB]
    have hdrop : n.drop 4 ≠ [] ∧ (n.drop 4).getLast? = n.getLast? := by
      rcases (Bool.or_eq_true _ _).mp hB with hb | hb
      · exact drop_prefix_facts n (strBytes "//?/") 4 rfl rfl
          (List.isPrefixOf_iff_prefix.mp hb) h3n
      · exact drop_prefix_facts n (strBytes "//./") 4 rfl rfl
          (List.isPrefixOf_iff_prefix.mp hb) h3n
    have hn2mem : 92 ∉ n.drop 4 := fun hm => h2n (List.mem_of_mem_drop hm)
    have hn2last : (n.drop 4).getLast? ≠ some 47 := by
      rw [hdrop.2]
      exact h3n
    rw [if_neg hdrop.1]
    exact Or.inr (normalize_final_step_shape _ hdrop.1 hn2mem hn2last)
  · rw [if_neg hB, if_neg hnil]
    exact Or.inr (normalize_final_step_shape _ hnil h2n h3n)

theorem maxByKeyLast_go {α : Type} (l : List (α × Nat)) :
    ∀ a : α × Nat, ∃ x, l.foldl maxByKeyStep (some a) = some x ∧
      (x = a ∨ x ∈ l) ∧ a.2 ≤ x.2 ∧ ∀ y ∈ l, y.2 ≤ x.2 := by
  induction l with
  | nil => exact fun a => ⟨a, rfl, Or.inl rfl, le_refl _, by simp⟩
  | cons p rest ih =>
    intro a
    by_cases hlt : p.2 < a.2
    · obtain ⟨x, hx, hmem, hle, hall⟩ := ih a
      refine ⟨x, ?_, ?_, hle, ?_⟩
      · simpa [maxByKeyStep, hlt] using hx
      · rcases hmem with hm | hm
        · exact Or.inl hm
        · exact Or.inr (by simp [hm])
      · intro y hy
        rcases List.mem_cons.mp hy with hm | hm
        · subst hm
          omega
        · exact hall y hm
    · obtain ⟨x, hx, hmem, hle, hall⟩ := ih p
      refine ⟨x, ?_, ?_, ?_, ?_⟩
      · simpa [maxByKeyStep, hlt] using hx
      · rcases hmem with hm | hm
        · exact Or.inr (by simp [hm])
        · exact Or.inr (by simp [hm])
      · omega
      · intro y hy
        rcases List.mem_cons.mp hy with hm | hm
        · subst hm
          exact hle
        · exact hall y hm

theorem maxByKeyLast_spec {α : Type} (l : List (α × Nat)) :
    (∀ x, maxByKeyLast l = some x → x ∈ l ∧ ∀ y ∈ l, y.2 ≤ x.2) ∧
    (l ≠ [] → (maxByKeyLast l).isSome = true) := by
  cases l with
  | nil => exact ⟨fun x hx => by simp [maxByKeyLast] at hx, fun h => absurd rfl h⟩
  | cons p rest =>
    obtain ⟨x, hx, hmem, hle, hall⟩ := maxByKeyLast_go rest p
    have hrun : maxByKeyLast (p :: rest) = some x := by
      simpa [maxByKeyLast, maxByKeyStep] using hx
    constructor
    · intro z hz
      rw [hrun] at hz
      cases hz
      constructor
      · rcases hmem with hm | hm
        · exact hm ▸ List.mem_cons_self p rest
        · exact List.mem_cons_of_mem p hm
      · intro y hy
        rcases List.mem_cons.mp hy with hm | hm
        · subst hm
          exact hle
        · exact hall y hm
    · intro _
      rw [hrun]
      rfl

theorem childRespawnStep_lookup_ne (env : SettingsEnv) (a : AppSettings)
    (pe es : WorkspaceEntry) (acc : List (String × Nat) × List DaemonAction)
    (c : WorkspaceEntry) (id : String) (h : c.id ≠ id) :
    lookupA (childRespawnStep env a pe es acc c).1 id = lookupA acc.1 id := by
  simp only [childRespawnStep]
  split
  · split
    · rfl
    · split
      · rfl
      · exact lookupA_insertA_ne acc.1 c.id id _ h
  · rfl

theorem childRespawnStep_trace_mono (env : SettingsEnv) (a : AppSettings)
    (pe es : WorkspaceEntry) (acc : List (String × Nat) × List DaemonAction)
    (c : WorkspaceEntry) :
    ∃ t, (childRespawnStep env a pe es acc c).2 = acc.2 ++ t := by
  simp only [childRespawnStep]
  split
  · split
    · exact ⟨[], by simp⟩
    · split
      · exact ⟨[], by simp⟩
      · exact ⟨_, rfl⟩
  · exact ⟨[], by simp⟩

theorem respawnChildren_lookup_ne (env : SettingsEnv) (a : AppSettings)
    (pe es : WorkspaceEntry) (cs : List WorkspaceEntry) (id : String)
    (h : ∀ c ∈ cs, c.id ≠ id) :
    ∀ start, lookupA (respawnChildren env a pe es cs start).1 id = lookupA start.1 id := by
  induction cs with
  | nil => intro start; rfl
  | cons c rest ih =>
    intro start
    have step := childRespawnStep_lookup_ne env a pe es start c id (h c (by simp))
    have hrest : ∀ c2 ∈ rest, c2.id ≠ id := fun c2 hc2 => h c2 (by simp [hc2])
    calc lookupA (respawnChildren env a pe es (c :: rest) start).1 id
        = lookupA (respawnChildren env a pe es rest
            (childRespawnStep env a pe es start c)).1 id := rfl
      _ = lookupA (childRespawnStep env a pe es start c).1 id := ih hrest _
      _ = lookupA start.1 id := step

theorem respawnChildren_trace_mono (env : SettingsEnv) (a : AppSettings)
    (pe es : WorkspaceEntry) (cs : List WorkspaceEntry) :
    ∀ start, ∃ t, (respawnChildren env a pe es cs start).2 = start.2 ++ t := by
  induction cs with
  | nil => intro start; exact ⟨[], by simp [respawnChildren]⟩
  | cons c rest ih =>
    intro start
    obtain ⟨t1, h1⟩ := childRespawnStep_trace_mono env a pe es start c
    obtain ⟨t2, h2⟩ := ih (childRespawnStep env a pe es start c)
    refine ⟨t1 ++ t2, ?_⟩
    calc (respawnChildren env a pe es (c :: rest) start).2
        = (respawnChildren env a pe es rest (childRespawnStep env a pe es start c)).2 := rfl
      _ = (childRespawnStep env a pe es start c).2 ++ t2 := h2
      _ = (start.2 ++ t1) ++ t2 := by rw [h1]
      _ = start.2 ++ (t1 ++ t2) := by rw [List.append_assoc]

theorem mem_respawnChildren_trace {a : DaemonAction} (env : SettingsEnv)
    (ap : AppSettings) (pe es : WorkspaceEntry) (cs : List WorkspaceEntry)
    (start : List (String × Nat) × List DaemonAction) (h : a ∈ start.2) :
    a ∈ (respawnChildren env ap pe es cs start).2 := by
  obtain ⟨t, ht⟩ := respawnChildren_trace_mono env ap pe es cs start
  rw [ht]
  exact List.mem_append.mpr (Or.inl h)

/-! ## Claim theorems -/

/-- C1: on a live session, `send_request_for_workspace` awaits the one-shot
slot with the 300-second `REQUEST_TIMEOUT`; when the timeout expires the
entries for the allocated request id are removed from both `pending` and
`request_context` and the result is an error whose message contains
"timed out"; when the framed write to stdin fails, both entries are removed
and the write error is returned. -/
theorem send_request_timeout_write_failure_cleanup (st : SessionState)
    (workspaceId method : String) (params : Json) :
    requestTimeoutSecs = 300 ∧
    ((sendRequestForWorkspace st workspaceId method params .timedOut).2 =
        .error ("request " ++ "timed out" ++ " after 300 seconds") ∧
      st.nextId ∉ (sendRequestForWorkspace st workspaceId method params .timedOut).1.pending ∧
      lookupA (sendRequestForWorkspace st workspaceId method params
        .timedOut).1.requestContext st.nextId = none) ∧
    (∀ e : String,
      (sendRequestForWorkspace st workspaceId method params (.writeFailed e)).2 = .error e ∧
      st.nextId ∉
        (sendRequestForWorkspace st workspaceId method params (.writeFailed e)).1.pending ∧
      lookupA (sendRequestForWorkspace st workspaceId method params
        (.writeFailed e)).1.requestContext st.nextId = none) := by
  refine ⟨rfl, ⟨rfl, not_mem_filter_ne_self _ _, lookupA_eraseA _ _⟩,
    fun e => ⟨rfl, not_mem_filter_ne_self _ _, lookupA_eraseA _ _⟩⟩

/-- Counterexample for C6 as stated: `normalize_root_path` is NOT idempotent.
For the input `//?/unc/?/a` the first pass rewrites the `//?/unc/` prefix to
`//`, producing `//?/a` — which itself starts with the `//?/` device prefix,
so a second pass strips four more characters and yields `a`. -/
theorem normalize_root_path_idempotence_counterexample :
    normalizeRootPath (normalizeRootPath (strBytes "//?/unc/?/a")) ≠
      normalizeRootPath (strBytes "//?/unc/?/a") ∧
    normalizeRootPath (strBytes "//?/unc/?/a") = strBytes "//?/a" ∧
    normalizeRootPath (normalizeRootPath (strBytes "//?/unc/?/a")) = strBytes "a" :=
  ⟨by decide, by decide, by decide⟩

/-- C6 (amended): `normalize_root_path` is idempotent for every input whose
normalized form does not itself begin (after ASCII lowercasing) with the
Win32 device prefixes `//?/` or `//./` — equivalently, whenever the
prefix-rewrite steps do not fire again on the output. (Inputs such as
`//?/unc/?/a`, whose output regains a device prefix, are normalized further
by a second application.) -/
theorem normalize_root_path_idempotent_off_device_prefixes (x : List Nat)
    (h1 : (strBytes "//?/").isPrefixOf (lowerBytes (normalizeRootPath x)) = false)
    (h2 : (strBytes "//./").isPrefixOf (lowerBytes (normalizeRootPath x)) = false) :
    normalizeRootPath (normalizeRootPath x) = normalizeRootPath x := by
  rcases normalizeRootPath_shape x with hz | ⟨hne, hmem, hlast, hinv⟩
  · rw [hz]
    rfl
  · set y := normalizeRootPath x with hy
    have hrepl : replaceBackslashes y = y := replaceBackslashes_of_not_mem hmem
    have htrim : trimTrailingSlashes y = y := trimTrailingSlashes_of_getLast hlast
    have hunc : ¬((strBytes "//?/unc/").isPrefixOf (lowerBytes y) = true) := by
      intro hu
      have hpre := List.isPrefixOf_iff_prefix.mp hu
      have hsub : strBytes "//?/" <+: strBytes "//?/unc/" := by decide
      have h4 : (strBytes "//?/").isPrefixOf (lowerBytes y) = true :=
        List.isPrefixOf_iff_prefix.mpr (hsub.trans hpre)
      rw [h1] at h4
      cases h4
    simp only [normalizeRootPath]
    rw [hrepl, htrim, if_neg hne, if_neg hunc]
    rw [if_neg (show ¬(((strBytes "//?/").isPrefixOf (lowerBytes y) ||
        (strBytes "//./").isPrefixOf (lowerBytes y)) = true) by simp [h1, h2])]
    rw [if_neg hne]
    by_cases hcond : (isDrivePathB y || (strBytes "//").isPrefixOf y) = true
    · rw [if_pos hcond]
      exact hinv hcond
    · rw [if_neg hcond]

/-- Witness for C6's amended theorem at a concrete path whose normal form
carries no device prefix. -/
theorem normalize_root_path_idempotent_witness :
    normalizeRootPath (normalizeRootPath (strBytes "C:\\Dev\\Codex\\")) =
      normalizeRootPath (strBytes "C:\\Dev\\Codex\\") :=
  normalize_root_path_idempotent_off_device_prefixes (strBytes "C:\\Dev\\Codex\\")
    (by decide) (by decide)

/-- C7: on a token-configured server, an unauthenticated connection answers
any non-`auth` request with an "unauthorized" error; an `auth` request with
a non-matching token gets "invalid token" and the connection stays
unauthenticated; an `auth` request with the matching token (string params or
an object with a `token` field, per `parseAuthToken`) gets `{ok: true}` and
the connection becomes authenticated and subscribed. With no configured
token the connection starts authenticated and subscribed. -/
theorem connection_auth_gate (t : String) (st : ConnState) (message : Json) (i : Nat)
    (hid : (message.get "id").bind Json.asU64 = some i)
    (hauth : st.authenticated = false) :
    (((message.get "method").bind Json.asStr).getD "" ≠ "auth" →
      connStep (some t) st (.parseOk message) =
        (st, [.respond (Json.obj [("id", Json.num i),
          ("error", Json.obj [("message", Json.str "unauthorized")])])])) ∧
    (((message.get "method").bind Json.asStr).getD "" = "auth" →
      ((parseAuthToken ((message.get "params").getD Json.null)).getD "" ≠ t →
        connStep (some t) st (.parseOk message) =
          (st, [.respond (Json.obj [("id", Json.num i),
            ("error", Json.obj [("message", Json.str "invalid token")])])])) ∧
      (parseAuthToken ((message.get "params").getD Json.null) = some t →
        connStep (some t) st (.parseOk message) =
          ({ authenticated := true, subscribed := true },
           [.respond (Json.obj [("id", Json.num i),
             ("result", Json.obj [("ok", Json.bool true)])])]))) ∧
    initialConnState none = { authenticated := true, subscribed := true } ∧
    initialConnState (some t) = { authenticated := false, subscribed := false } := by
  refine ⟨fun hm => ?_, fun hm => ⟨fun hbad => ?_, fun hgood => ?_⟩, rfl, rfl⟩
  · simp [connStep, hauth, hm, hid, buildErrorResponse]
  · simp [connStep, hauth, hm, hid, buildErrorResponse, Ne.symm hbad]
  · simp [connStep, hauth, hm, hid, hgood, buildResultResponse]

/-- Witness for C7 at a concrete unauthenticated connection and concrete
auth messages. -/
theorem connection_auth_gate_witness :
    connStep (some "s3cret") ⟨false, false⟩
        (.parseOk (Json.obj [("id", Json.num 1), ("method", Json.str "ping")])) =
      (⟨false, false⟩, [.respond (Json.obj [("id", Json.num 1),
        ("error", Json.obj [("message", Json.str "unauthorized")])])]) ∧
    connStep (some "s3cret") ⟨false, false⟩
        (.parseOk (Json.obj [("id", Json.num 1), ("method", Json.str "auth"),
          ("params", Json.str "wrong")])) =
      (⟨false, false⟩, [.respond (Json.obj [("id", Json.num 1),
        ("error", Json.obj [("message", Json.str "invalid token")])])]) ∧
    connStep (some "s3cret") ⟨false, false⟩
        (.parseOk (Json.obj [("id", Json.num 1), ("method", Json.str "auth"),
          ("params", Json.obj [("token", Json.str "s3cret")])])) =
      (⟨true, true⟩, [.respond (Json.obj [("id", Json.num 1),
        ("result", Json.obj [("ok", Json.bool true)])])]) := by
  refine ⟨?_, ?_, ?_⟩
  · exact (connection_auth_gate "s3cret" ⟨false, false⟩
      (Json.obj [("id", Json.num 1), ("method", Json.str "ping")]) 1 rfl rfl).1
      (by decide)
  · exact ((connection_auth_gate "s3cret" ⟨false, false⟩
      (Json.obj [("id", Json.num 1), ("method", Json.str "auth"),
        ("params", Json.str "wrong")]) 1 rfl rfl).2.1 rfl).1 (by decide)
  · exact ((connection_auth_gate "s3cret" ⟨false, false⟩
      (Json.obj [("id", Json.num 1), ("method", Json.str "auth"),
        ("params", Json.obj [("token", Json.str "s3cret")])]) 1 rfl rfl).2.1 rfl).2 rfl

/-- C8: in `rename_worktree`, when `git branch -m old new` succeeds but the
subsequent `git worktree move` to a different target path fails, the
operation attempts to revert the branch rename and returns the move error,
leaving the state — in particular the persisted record list — unchanged; and
a rename whose trimmed name equals the current branch is rejected with
"Branch name is unchanged." with an empty action trace, i.e. before any git
command runs. -/
theorem rename_worktree_move_failure_and_unchanged_name (env : RenameEnv)
    (st : DaemonState) (id branch : String) (entry parent : WorkspaceEntry)
    (wt : WorktreeInfo) (finalBranch nextPath moveError : String)
    (hentry : lookupA st.workspaces id = some entry)
    (hkind : entry.kind = .worktree)
    (hpid : entry.parentId = some parent.id)
    (hparent : lookupA st.workspaces parent.id = some parent)
    (hwt : entry.worktree = some wt)
    (htrim : strTrim branch ≠ "")
    (hneq : wt.branch ≠ strTrim branch)
    (hub : env.uniqueBranch = .ok finalBranch)
    (hfb : finalBranch ≠ wt.branch)
    (hbr : env.branchRename = .ok ())
    (hcd : env.createWorktreeDir = .ok ())
    (hup : uniqueWorktreePathForRename env.pathExists
        (st.dataDir ++ "/worktrees/" ++ parent.id) (sanitizeWorktreeName finalBranch)
        entry.path = .ok nextPath)
    (hdiff : nextPath ≠ entry.path)
    (hmv : env.worktreeMove = .error moveError) :
    (renameWorktree env st id branch).1 = st ∧
    (renameWorktree env st id branch).1.persisted = st.persisted ∧
    (renameWorktree env st id branch).2.2 = Except.error moveError ∧
    DaemonAction.gitWorktreeMove entry.path nextPath ∈ (renameWorktree env st id branch).2.1 ∧
    DaemonAction.gitBranchRename finalBranch wt.branch ∈ (renameWorktree env st id branch).2.1 ∧
    (∀ b2 : String, strTrim b2 = wt.branch → strTrim b2 ≠ "" →
      renameWorktree env st id b2 = (st, [], .error "Branch name is unchanged.")) := by
  have hrun : renameWorktree env st id branch =
      (st,
       [DaemonAction.gitUniqueBranchProbe,
        .gitBranchRename wt.branch finalBranch,
        .createDir (st.dataDir ++ "/worktrees/" ++ parent.id),
        .gitWorktreeMove entry.path nextPath,
        .gitBranchRename finalBranch wt.branch],
       .error moveError) := by
    simp [renameWorktree, hentry, hkind, hpid, hparent, hwt, htrim, hneq, hub,
      hfb, hbr, hcd, hup, hdiff, hmv, WorkspaceKind.isWorktree, Ne.symm hneq]
  refine ⟨by rw [hrun], by rw [hrun], by rw [hrun], by rw [hrun]; simp,
    by rw [hrun]; simp, fun b2 hb2 hb2ne => ?_⟩
  have h1 : wt.branch ≠ "" := hb2 ▸ hb2ne
  simp [renameWorktree, hentry, hkind, hpid, hparent, hwt, hb2, h1,
    WorkspaceKind.isWorktree]

/-- Witness for C8 at a concrete state and environment: the move fails, the
revert is attempted, the persisted list is untouched; the same-name rename
is rejected with an empty trace. -/
theorem rename_worktree_move_failure_witness :
    ((renameWorktree
        ⟨.ok "new", .ok (), .ok (), (fun _ => false), .error "move failed", .ok 9⟩
        ⟨"/data",
         [("P", ⟨"P", "proj", "/repo", none, .main, none, none, ⟨none, none, none, none⟩⟩),
          ("W", ⟨"W", "old", "/data/worktrees/P/old-2", none, .worktree, some "P",
            some ⟨"old"⟩, ⟨none, none, none, none⟩⟩)],
         [], ⟨none, none⟩, []⟩
        "W" "new").2.2 = Except.error "move failed" ∧
      DaemonAction.gitBranchRename "new" "old" ∈
        (renameWorktree
          ⟨.ok "new", .ok (), .ok (), (fun _ => false), .error "move failed", .ok 9⟩
          ⟨"/data",
           [("P", ⟨"P", "proj", "/repo", none, .main, none, none, ⟨none, none, none, none⟩⟩),
            ("W", ⟨"W", "old", "/data/worktrees/P/old-2", none, .worktree, some "P",
              some ⟨"old"⟩, ⟨none, none, none, none⟩⟩)],
           [], ⟨none, none⟩, []⟩
          "W" "new").2.1) ∧
    renameWorktree
        ⟨.ok "new", .ok (), .ok (), (fun _ => false), .error "move failed", .ok 9⟩
        ⟨"/data",
         [("P", ⟨"P", "proj", "/repo", none, .main, none, none, ⟨none, none, none, none⟩⟩),
          ("W", ⟨"W", "old", "/data/worktrees/P/old-2", none, .worktree, some "P",
            some ⟨"old"⟩, ⟨none, none, none, none⟩⟩)],
         [], ⟨none, none⟩, []⟩
        "W" "old" =
      (⟨"/data",
        [("P", ⟨"P", "proj", "/repo", none, .main, none, none, ⟨none, none, none, none⟩⟩),
         ("W", ⟨"W", "old", "/data/worktrees/P/old-2", none, .worktree, some "P",
           some ⟨"old"⟩, ⟨none, none, none, none⟩⟩)],
        [], ⟨none, none⟩, []⟩, [], .error "Branch name is unchanged.") := by
  have h := rename_worktree_move_failure_and_unchanged_name
    ⟨.ok "new", .ok (), .ok (), (fun _ => false), .error "move failed", .ok 9⟩
    ⟨"/data",
     [("P", ⟨"P", "proj", "/repo", none, .main, none, none, ⟨none, none, none, none⟩⟩),
      ("W", ⟨"W", "old", "/data/worktrees/P/old-2", none, .worktree, some "P",
        some ⟨"old"⟩, ⟨none, none, none, none⟩⟩)],
     [], ⟨none, none⟩, []⟩
    "W" "new"
    ⟨"W", "old", "/data/worktrees/P/old-2", none, .worktree, some "P",
      some ⟨"old"⟩, ⟨none, none, none, none⟩⟩
    ⟨"P", "proj", "/repo", none, .main, none, none, ⟨none, none, none, none⟩⟩
    ⟨"old"⟩ "new" "/data/worktrees/P/new" "move failed"
    rfl rfl rfl rfl rfl (by decide) (by decide) rfl (by decide) rfl rfl
    rfl (by decide) rfl
  exact ⟨⟨h.2.2.1, h.2.2.2.2.1⟩, h.2.2.2.2.2 "old" (by decide) (by decide)⟩

/-- Counterexample for C9 as stated: `update_workspace_codex_bin` changes
the stored per-workspace agent-binary override of a workspace with a running
session and persists it, yet the session map is untouched and no kill or
spawn happens — the session is not replaced. -/
theorem codex_bin_update_without_respawn_counterexample :
    (updateWorkspaceCodexBin
        ⟨"/data",
         [("w", ⟨"w", "proj", "/tmp/proj", none, .main, none, none,
           ⟨none, none, none, none⟩⟩)],
         [("w", 11)], ⟨none, none⟩,
         [⟨"w", "proj", "/tmp/proj", none, .main, none, none,
           ⟨none, none, none, none⟩⟩]⟩
        "w" (some "/custom/codex")).1.sessions = [("w", 11)] ∧
    (updateWorkspaceCodexBin
        ⟨"/data",
         [("w", ⟨"w", "proj", "/tmp/proj", none, .main, none, none,
           ⟨none, none, none, none⟩⟩)],
         [("w", 11)], ⟨none, none⟩,
         [⟨"w", "proj", "/tmp/proj", none, .main, none, none,
           ⟨none, none, none, none⟩⟩]⟩
        "w" (some "/custom/codex")).2.1 = [] ∧
    (updateWorkspaceCodexBin
        ⟨"/data",
         [("w", ⟨"w", "proj", "/tmp/proj", none, .main, none, none,
           ⟨none, none, none, none⟩⟩)],
         [("w", 11)], ⟨none, none⟩,
         [⟨"w", "proj", "/tmp/proj", none, .main, none, none,
           ⟨none, none, none, none⟩⟩]⟩
        "w" (some "/custom/codex")).1.persisted =
      [⟨"w", "proj", "/tmp/proj", some "/custom/codex", .main, none, none,
        ⟨none, none, none, none⟩⟩] :=
  ⟨rfl, rfl, rfl⟩

/-- C9 (amended): for a workspace with a running session,
`update_workspace_settings` replaces the session whenever the stored
`codex_home` or `codex_args` changes and the replacement spawn succeeds: the
new session handle is swapped into the session map and the old child is
killed. `update_workspace_codex_bin`, by contrast, persists the override
without touching the session map and performs no kill or spawn. -/
theorem settings_change_respawns_session (env : SettingsEnv) (st : DaemonState)
    (id : String) (settings0 : WorkspaceSettings) (previousEntry : WorkspaceEntry)
    (h : Nat)
    (hentry : lookupA st.workspaces id = some previousEntry)
    (hid : previousEntry.id = id)
    (hconn : (lookupA st.sessions id).isSome = true)
    (hchanged : previousEntry.settings.codexHome ≠ settings0.codexHome ∨
      previousEntry.settings.codexArgs ≠ settings0.codexArgs)
    (hspawn : env.spawn id = .ok h)
    (hchild : ∀ p ∈ st.workspaces, p.2.parentId = some id → p.2.id ≠ id)
    (hself : previousEntry.parentId ≠ some id) :
    lookupA (updateWorkspaceSettings env st id settings0).1.sessions id = some h ∧
    DaemonAction.spawnSession id ∈ (updateWorkspaceSettings env st id settings0).2.1 ∧
    DaemonAction.killSession id ∈ (updateWorkspaceSettings env st id settings0).2.1 ∧
    (∀ (st2 : DaemonState) (wid : String) (v : Option String),
      (updateWorkspaceCodexBin st2 wid v).1.sessions = st2.sessions ∧
      (updateWorkspaceCodexBin st2 wid v).2.1 = []) := by
  subst hid
  have hcond : (lookupA st.sessions previousEntry.id).isSome = true ∧
      (previousEntry.settings.codexHome ≠ settings0.codexHome ∨
        previousEntry.settings.codexArgs ≠ settings0.codexArgs) := ⟨hconn, hchanged⟩
  have hne : ∀ c ∈ ((insertA st.workspaces previousEntry.id
        { previousEntry with settings := { settings0 with
          worktreeSetupScript := normalizeSetupScript settings0.worktreeSetupScript } }).filter
        (fun p => p.2.parentId == some previousEntry.id)).map Prod.snd,
      c.id ≠ previousEntry.id := by
    intro c hc
    obtain ⟨p, hp, rfl⟩ := List.mem_map.mp hc
    have hmem := (List.mem_filter.mp hp).1
    have hpar : p.2.parentId = some previousEntry.id := by
      simpa using (List.mem_filter.mp hp).2
    rcases mem_insertA hmem with h2 | h2
    · exfalso
      apply hself
      rw [← hpar, h2]
    · exact hchild p h2 hpar
  refine ⟨?_, ?_, ?_, fun st2 wid v => ?_⟩
  · simp only [updateWorkspaceSettings, hentry, hspawn]
    rw [if_pos hcond]
    dsimp only
    rw [if_pos hchanged, if_pos hconn]
    rw [respawnChildren_lookup_ne env st.appSettings previousEntry _ _ previousEntry.id hne]
    exact lookupA_insertA_self st.sessions previousEntry.id h
  · simp only [updateWorkspaceSettings, hentry, hspawn]
    rw [if_pos hcond]
    dsimp only
    rw [if_pos hchanged, if_pos hconn]
    exact mem_respawnChildren_trace _ _ _ _ _ _ (by simp)
  · simp only [updateWorkspaceSettings, hentry, hspawn]
    rw [if_pos hcond]
    dsimp only
    rw [if_pos hchanged, if_pos hconn]
    exact mem_respawnChildren_trace _ _ _ _ _ _ (by simp)
  · cases hw : lookupA st2.workspaces wid <;> simp [updateWorkspaceCodexBin, hw]

/-- Witness for C9's amended theorem: changing `codex_home` of a connected
workspace swaps in the freshly spawned session and kills the old one, while
a `codex_bin` update leaves the session map alone. -/
theorem settings_change_respawns_session_witness :
    lookupA (updateWorkspaceSettings
        ⟨(fun e _ => e.settings.codexHome), (fun e _ _ => e.settings.codexArgs),
         (fun _ => .ok 42)⟩
        ⟨"/data",
         [("w", ⟨"w", "proj", "/tmp/proj", none, .main, none, none,
           ⟨none, none, none, none⟩⟩)],
         [("w", 11)], ⟨none, none⟩,
         [⟨"w", "proj", "/tmp/proj", none, .main, none, none,
           ⟨none, none, none, none⟩⟩]⟩
        "w" ⟨some "/home2", none, none, none⟩).1.sessions "w" = some 42 ∧
    DaemonAction.spawnSession "w" ∈ (updateWorkspaceSettings
        ⟨(fun e _ => e.settings.codexHome), (fun e _ _ => e.settings.codexArgs),
         (fun _ => .ok 42)⟩
        ⟨"/data",
         [("w", ⟨"w", "proj", "/tmp/proj", none, .main, none, none,
           ⟨none, none, none, none⟩⟩)],
         [("w", 11)], ⟨none, none⟩,
         [⟨"w", "proj", "/tmp/proj", none, .main, none, none,
           ⟨none, none, none, none⟩⟩]⟩
        "w" ⟨some "/home2", none, none, none⟩).2.1 ∧
    DaemonAction.killSession "w" ∈ (updateWorkspaceSettings
        ⟨(fun e _ => e.settings.codexHome), (fun e _ _ => e.settings.codexArgs),
         (fun _ => .ok 42)⟩
        ⟨"/data",
         [("w", ⟨"w", "proj", "/tmp/proj", none, .main, none, none,
           ⟨none, none, none, none⟩⟩)],
         [("w", 11)], ⟨none, none⟩,
         [⟨"w", "proj", "/tmp/proj", none, .main, none, none,
           ⟨none, none, none, none⟩⟩]⟩
        "w" ⟨some "/home2", none, none, none⟩).2.1 ∧
    (updateWorkspaceCodexBin
        ⟨"/data",
         [("w", ⟨"w", "proj", "/tmp/proj", none, .main, none, none,
           ⟨none, none, none, none⟩⟩)],
         [("w", 11)], ⟨none, none⟩, []⟩ "w" (some "/x")).1.sessions = [("w", 11)] := by
  have H := settings_change_respawns_session
    ⟨(fun e _ => e.settings.codexHome), (fun e _ _ => e.settings.codexArgs),
     (fun _ => .ok 42)⟩
    ⟨"/data",
     [("w", ⟨"w", "proj", "/tmp/proj", none, .main, none, none,
       ⟨none, none, none, none⟩⟩)],
     [("w", 11)], ⟨none, none⟩,
     [⟨"w", "proj", "/tmp/proj", none, .main, none, none,
       ⟨none, none, none, none⟩⟩]⟩
    "w" ⟨some "/home2", none, none, none⟩
    ⟨"w", "proj", "/tmp/proj", none, .main, none, none, ⟨none, none, none, none⟩⟩
    42 rfl rfl rfl (Or.inl (by decide)) rfl
    (by
      intro p hp hpar
      simp at hp
      rw [hp] at hpar
      simp at hpar)
    (by decide)
  exact ⟨H.1, H.2.1, H.2.2.1,
    (H.2.2.2 ⟨"/data",
      [("w", ⟨"w", "proj", "/tmp/proj", none, .main, none, none,
        ⟨none, none, none, none⟩⟩)],
      [("w", 11)], ⟨none, none⟩, []⟩ "w" (some "/x")).1⟩

/-- C10: a control-plane line that is not valid JSON produces no response
and no state change, and processing of subsequent lines continues
unaffected — while a malformed subprocess stdout line produces exactly one
synthetic `codex/parseError` broadcast event and leaves the session state
unchanged. -/
theorem invalid_line_handling (token : Option String) (cs : ConnState)
    (rest : List LineInput) (fallbackWorkspaceId : String) (st : SessionState)
    (err raw : String) :
    connStep token cs (.parseFail err raw) = (cs, []) ∧
    connSteps token cs (.parseFail err raw :: rest) = connSteps token cs rest ∧
    processLine fallbackWorkspaceId st (.parseFail err raw) =
      (st, [.emitEvent fallbackWorkspaceId (Json.obj
        [("method", Json.str "codex/parseError"),
         ("params", Json.obj [("error", Json.str err), ("raw", Json.str raw)])])]) := by
  refine ⟨rfl, ?_, rfl⟩
  simp [connSteps, connStep]

/-- Counterexample for C3 as stated: with two workspaces sharing the same
(equal-length, hence equal) matching root, iterated in the order
`a`, `b`, the resolver returns `b` — not the lexicographically smaller
workspace id `a` the claim requires (`max_by_key` keeps the LAST maximal
element, and `HashMap` iteration order is arbitrary, so the order shown is
reachable). -/
theorem resolve_workspace_tiebreak_counterexample :
    resolveWorkspaceForCwd (strBytes "/a") [("a", strBytes "/a"), ("b", strBytes "/a")] =
      some "b" ∧
    resolveWorkspaceForCwd (strBytes "/a") [("a", strBytes "/a"), ("b", strBytes "/a")] ≠
      some "a" ∧
    cwdRootMatches (normalizeRootPath (strBytes "/a")) (strBytes "/a") = true :=
  ⟨by decide, by decide, by decide⟩

/-- C3 (amended): `resolve_workspace_for_cwd` returns `None` when the cwd
normalizes to empty or no registered root matches; any returned workspace
owns a matching root of maximal length among all matching roots; and some
workspace is returned whenever a root matches. When several equal-length
(hence equal) roots match, the result is the last matching entry in the
map's iteration order — there is no lexicographic tie-break on workspace
ids. -/
theorem resolve_workspace_longest_match (cwd : List Nat)
    (roots : List (String × List Nat)) :
    (normalizeRootPath cwd = [] → resolveWorkspaceForCwd cwd roots = none) ∧
    ((∀ p ∈ roots, cwdRootMatches (normalizeRootPath cwd) p.2 = false) →
      resolveWorkspaceForCwd cwd roots = none) ∧
    (∀ w, resolveWorkspaceForCwd cwd roots = some w →
      ∃ root, (w, root) ∈ roots ∧ cwdRootMatches (normalizeRootPath cwd) root = true ∧
        ∀ p ∈ roots, cwdRootMatches (normalizeRootPath cwd) p.2 = true →
          p.2.length ≤ root.length) ∧
    (∀ p ∈ roots, cwdRootMatches (normalizeRootPath cwd) p.2 = true →
      (resolveWorkspaceForCwd cwd roots).isSome = true) := by
  by_cases hn : normalizeRootPath cwd = []
  · have hres : resolveWorkspaceForCwd cwd roots = none := by
      simp [resolveWorkspaceForCwd, hn]
    refine ⟨fun _ => hres, fun _ => hres, fun w hw => ?_, fun p hp hm => ?_⟩
    · rw [hres] at hw
      cases hw
    · exfalso
      have : cwdRootMatches [] p.2 = true := hn ▸ hm
      simp [cwdRootMatches] at this
  · have hres : resolveWorkspaceForCwd cwd roots =
        (maxByKeyLast (roots.filterMap (fun p =>
          if cwdRootMatches (normalizeRootPath cwd) p.2 then some (p.1, p.2.length)
          else none))).map (fun p => p.1) := by
      simp [resolveWorkspaceForCwd, hn]
    refine ⟨fun h => absurd h hn, fun hall => ?_, fun w hw => ?_, fun p hp hm => ?_⟩
    · have hc : roots.filterMap (fun p =>
          if cwdRootMatches (normalizeRootPath cwd) p.2 then some (p.1, p.2.length)
          else none) = [] :=
        List.filterMap_eq_nil_iff.mpr (fun p hp => by simp [hall p hp])
      rw [hres, hc]
      rfl
    · rw [hres] at hw
      cases hmx : maxByKeyLast (roots.filterMap (fun p =>
          if cwdRootMatches (normalizeRootPath cwd) p.2 then some (p.1, p.2.length)
          else none)) with
      | none => rw [hmx] at hw; cases hw
      | some x =>
        rw [hmx] at hw
        simp only [Option.map_some'] at hw
        obtain ⟨hmem, hmax⟩ := (maxByKeyLast_spec _).1 x hmx
        obtain ⟨p, hp, hf⟩ := List.mem_filterMap.mp hmem
        by_cases hm : cwdRootMatches (normalizeRootPath cwd) p.2 = true
        · simp only [hm, if_true] at hf
          injection hf with hf2
          injection hw with hw2
          refine ⟨p.2, ?_, hm, ?_⟩
          · have hwp : w = p.1 := by rw [← hw2, ← hf2]
            rw [hwp]
            exact hp
          · intro q hq hqm
            have hqin : (q.1, q.2.length) ∈ roots.filterMap (fun p =>
                if cwdRootMatches (normalizeRootPath cwd) p.2 then some (p.1, p.2.length)
                else none) :=
              List.mem_filterMap.mpr ⟨q, hq, by simp [hqm]⟩
            have := hmax _ hqin
            rw [← hf2] at this
            simpa using this
        · simp [hm] at hf
    · have hin : (p.1, p.2.length) ∈ roots.filterMap (fun p =>
          if cwdRootMatches (normalizeRootPath cwd) p.2 then some (p.1, p.2.length)
          else none) :=
        List.mem_filterMap.mpr ⟨p, hp, by simp [hm]⟩
      have hsome := (maxByKeyLast_spec _).2 (List.ne_nil_of_mem hin)
      rw [hres]
      cases hmx : maxByKeyLast (roots.filterMap (fun p =>
          if cwdRootMatches (normalizeRootPath cwd) p.2 then some (p.1, p.2.length)
          else none)) with
      | none => rw [hmx] at hsome; cases hsome
      | some x => rfl

/-- Witness for C3's amended theorem: the nested root wins for a nested cwd;
a non-matching map yields `None`; a matching map yields a result. -/
theorem resolve_workspace_longest_match_witness :
    (∃ root, ("ws-child", root) ∈
        [("ws-parent", strBytes "/tmp/codex"), ("ws-child", strBytes "/tmp/codex/subdir")] ∧
      cwdRootMatches (normalizeRootPath (strBytes "/tmp/codex/subdir/project")) root =
        true ∧
      ∀ p ∈ [("ws-parent", strBytes "/tmp/codex"),
             ("ws-child", strBytes "/tmp/codex/subdir")],
        cwdRootMatches (normalizeRootPath (strBytes "/tmp/codex/subdir/project")) p.2 =
          true → p.2.length ≤ root.length) ∧
    resolveWorkspaceForCwd (strBytes "/elsewhere") [("ws-1", strBytes "/tmp/codex")] =
      none ∧
    (resolveWorkspaceForCwd (strBytes "/tmp/codex/subdir/project")
      [("ws-parent", strBytes "/tmp/codex"),
       ("ws-child", strBytes "/tmp/codex/subdir")]).isSome = true := by
  refine ⟨?_, ?_, ?_⟩
  · exact (resolve_workspace_longest_match (strBytes "/tmp/codex/subdir/project")
      [("ws-parent", strBytes "/tmp/codex"),
       ("ws-child", strBytes "/tmp/codex/subdir")]).2.2.1 "ws-child" (by decide)
  · exact (resolve_workspace_longest_match (strBytes "/elsewhere")
      [("ws-1", strBytes "/tmp/codex")]).2.1 (by decide)
  · exact (resolve_workspace_longest_match (strBytes "/tmp/codex/subdir/project")
      [("ws-parent", strBytes "/tmp/codex"),
       ("ws-child", strBytes "/tmp/codex/subdir")]).2.2.2
      ("ws-child", strBytes "/tmp/codex/subdir") (by decide) (by decide)

/-- C4: an inbound message that routes as a notification (a method, and no
`result`/`error` payload — covering both id-less notifications and
server-originated requests), whose method is one of the three global account
notifications, with no extractable thread id (hence no background capture
and, notification routing popping no request context, no request-context
workspace), is fanned out: exactly one event per currently-attached
workspace id, each carrying the identical message. Every other notification
that is not background-captured produces exactly one event, addressed to the
routed workspace id. -/
theorem global_notification_fanout_and_single_routing (fallbackWorkspaceId : String)
    (st : SessionState) :
    (∀ (value : Json) (m : String),
      value.get "method" = some (Json.str m) →
      isGlobalWorkspaceNotification m = true →
      value.get "result" = none →
      value.get "error" = none →
      extractThreadId value = none →
      st.workspaceIds ≠ [] →
      (processLine fallbackWorkspaceId st (.parseOk value)).2 =
        st.workspaceIds.map (fun w => Output.emitEvent w value)) ∧
    (∀ (value : Json) (m : String),
      value.get "method" = some (Json.str m) →
      value.get "result" = none →
      value.get "error" = none →
      shouldBroadcastGlobalWorkspaceNotification (some m) (extractThreadId value) none =
        false →
      (∀ tid, extractThreadId value = some tid →
        st.backgroundThreadCallbacks.contains tid = false) →
      (processLine fallbackWorkspaceId st (.parseOk value)).2 =
        [.emitEvent (routedNotificationWorkspaceId fallbackWorkspaceId st value) value]) := by
  constructor
  · intro value m hm hglobal hres herr htid hws
    cases hid : (value.get "id").bind Json.asU64 with
    | none =>
      simp [processLine, hid, hm, hres, herr, htid, Json.asStr, notificationOutputs,
        shouldBroadcastGlobalWorkspaceNotification, hglobal, broadcastOutputs,
        List.isEmpty_eq_false.mpr hws]
    | some i =>
      simp [processLine, hid, hm, hres, herr, htid, Json.asStr, notificationOutputs,
        shouldBroadcastGlobalWorkspaceNotification, hglobal, broadcastOutputs,
        List.isEmpty_eq_false.mpr hws]
  · intro value m hm hres herr hnb hbg
    cases hid : (value.get "id").bind Json.asU64 with
    | none =>
      cases htid : extractThreadId value with
      | none =>
        rw [htid] at hnb
        simp [processLine, hid, hm, hres, herr, htid, Json.asStr, notificationOutputs,
          routedNotificationWorkspaceId, hnb]
      | some tid =>
        rw [htid] at hnb
        have hbg2 : tid ∉ st.backgroundThreadCallbacks := by simpa using hbg tid htid
        simp [processLine, hid, hm, hres, herr, htid, Json.asStr, notificationOutputs,
          routedNotificationWorkspaceId, hbg2, hnb]
    | some i =>
      cases htid : extractThreadId value with
      | none =>
        rw [htid] at hnb
        simp [processLine, hid, hm, hres, herr, htid, Json.asStr, notificationOutputs,
          routedNotificationWorkspaceId, hnb]
      | some tid =>
        rw [htid] at hnb
        have hbg2 : tid ∉ st.backgroundThreadCallbacks := by simpa using hbg tid htid
        simp [processLine, hid, hm, hres, herr, htid, Json.asStr, notificationOutputs,
          routedNotificationWorkspaceId, hbg2, hnb]

/-- Witness for C4: with workspaces `w1`, `w2` attached, an id-less
`account/updated` notification without thread id fans out to both; a
`turn/started` notification with a bound thread id yields the single event
for the bound workspace. -/
theorem global_notification_fanout_and_single_routing_witness :
    (processLine "w1" ⟨1, [], [], [("T", "w2")], [], ["w1", "w2"], []⟩
        (.parseOk (Json.obj [("method", Json.str "account/updated"),
          ("params", Json.obj [])]))).2 =
      [.emitEvent "w1" (Json.obj [("method", Json.str "account/updated"),
          ("params", Json.obj [])]),
       .emitEvent "w2" (Json.obj [("method", Json.str "account/updated"),
          ("params", Json.obj [])])] ∧
    (processLine "w1" ⟨1, [], [], [("T", "w2")], [], ["w1", "w2"], []⟩
        (.parseOk (Json.obj [("method", Json.str "turn/started"),
          ("params", Json.obj [("threadId", Json.str "T")])]))).2 =
      [.emitEvent "w2" (Json.obj [("method", Json.str "turn/started"),
          ("params", Json.obj [("threadId", Json.str "T")])])] := by
  constructor
  · exact ((global_notification_fanout_and_single_routing "w1"
      ⟨1, [], [], [("T", "w2")], [], ["w1", "w2"], []⟩).1
      (Json.obj [("method", Json.str "account/updated"), ("params", Json.obj [])])
      "account/updated" rfl rfl rfl rfl rfl (by decide)).trans rfl
  · exact ((global_notification_fanout_and_single_routing "w1"
      ⟨1, [], [], [("T", "w2")], [], ["w1", "w2"], []⟩).2
      (Json.obj [("method", Json.str "turn/started"),
        ("params", Json.obj [("threadId", Json.str "T")])])
      "turn/started" rfl rfl rfl rfl (fun _ _ => rfl)).trans rfl

/-- C5: a notification-routed message (id-less, or a server-originated
request with id and method but no result/error) whose extracted thread id
has a registered background subscriber is delivered only to that
subscriber's channel; the broadcast sink receives nothing for it. -/
theorem background_subscriber_capture (fallbackWorkspaceId : String)
    (st : SessionState) (value : Json) (tid : String)
    (hres : value.get "result" = none)
    (herr : value.get "error" = none)
    (hmeth : (value.get "method").isSome = true)
    (htid : extractThreadId value = some tid)
    (hbg : st.backgroundThreadCallbacks.contains tid = true) :
    (processLine fallbackWorkspaceId st (.parseOk value)).2 =
      [.toBackground tid value] := by
  have hbg2 : tid ∈ st.backgroundThreadCallbacks := by simpa using hbg
  cases hid : (value.get "id").bind Json.asU64 <;>
    simp [processLine, hid, hres, herr, htid, hmeth, notificationOutputs, hbg2]

/-- Counterexample for C2 as stated: a stdout message carrying an id but no
result, no error, and no method (here `{"id":5}`) is delivered into the
pending slot and `pending[5]` is removed, yet `request_context[5]` is
retained — the two maps are NOT removed together on this delivery path. -/
theorem pending_context_removal_counterexample :
    (processLine "w1" ⟨6, [5], [(5, ⟨"w1", "thread/start"⟩)], [], [], ["w1"], []⟩
        (.parseOk (Json.obj [("id", Json.num 5)]))).2 =
      [.resolvePending 5 (Json.obj [("id", Json.num 5)])] ∧
    (processLine "w1" ⟨6, [5], [(5, ⟨"w1", "thread/start"⟩)], [], [], ["w1"], []⟩
        (.parseOk (Json.obj [("id", Json.num 5)]))).1.pending = [] ∧
    lookupA (processLine "w1" ⟨6, [5], [(5, ⟨"w1", "thread/start"⟩)], [], [], ["w1"], []⟩
        (.parseOk (Json.obj [("id", Json.num 5)]))).1.requestContext 5 =
      some ⟨"w1", "thread/start"⟩ :=
  ⟨rfl, rfl, rfl⟩

/-- C2 (amended): for every request id, at most one slot delivery occurs
over any whole stdout stream; on the response path (id with result or error)
`pending[i]` and `request_context[i]` end up removed together; on the
bare-id delivery path (id, but no result, no error, and no method) only
`pending[i]` is removed while `request_context` is left untouched; the
shutdown sweep clears both maps. -/
theorem slot_resolved_at_most_once_and_map_removal (f : String) (st : SessionState) :
    (∀ (ls : List LineInput) (i : Nat),
      (processLines f st ls).2.countP (isResolveFor i) ≤ 1) ∧
    (∀ (value : Json) (i : Nat),
      (value.get "id").bind Json.asU64 = some i →
      ((value.get "result").isSome || (value.get "error").isSome) = true →
      i ∉ (processLine f st (.parseOk value)).1.pending ∧
      lookupA (processLine f st (.parseOk value)).1.requestContext i = none) ∧
    (∀ (value : Json) (i : Nat),
      (value.get "id").bind Json.asU64 = some i →
      value.get "method" = none →
      value.get "result" = none →
      value.get "error" = none →
      i ∉ (processLine f st (.parseOk value)).1.pending ∧
      (processLine f st (.parseOk value)).1.requestContext = st.requestContext) ∧
    ((sweepSession st).pending = [] ∧ (sweepSession st).requestContext = []) := by
  refine ⟨fun ls i => processLines_resolve_at_most_once f ls st i,
    fun value i hid hre => ?_, fun value i hid hm hres herr => ?_, rfl, rfl⟩
  · constructor
    · have : (processLine f st (.parseOk value)).1.pending =
          st.pending.filter (fun j => j != i) := by
        simp [processLine, hid, hre]
      rw [this]
      exact not_mem_filter_ne_self st.pending i
    · cases hctx : lookupA st.requestContext i with
      | none => simp [processLine, hid, hre, hctx]
      | some ctx =>
        simp [processLine, hid, hre, hctx]
        exact lookupA_eraseA st.requestContext i
  · constructor
    · have : (processLine f st (.parseOk value)).1.pending =
          st.pending.filter (fun j => j != i) := by
        simp [processLine, hid, hm, hres, herr]
      rw [this]
      exact not_mem_filter_ne_self st.pending i
    · simp [processLine, hid, hm, hres, herr]

/-- Witness for C2's amended theorem: concrete response and bare-id
messages against a session with one pending request. -/
theorem slot_resolved_at_most_once_and_map_removal_witness :
    (3 ∉ (processLine "w" ⟨4, [3], [(3, ⟨"w", "thread/start"⟩)], [], [], ["w"], []⟩
        (.parseOk (Json.obj [("id", Json.num 3), ("result", Json.obj [])]))).1.pending ∧
      lookupA (processLine "w" ⟨4, [3], [(3, ⟨"w", "thread/start"⟩)], [], [], ["w"], []⟩
        (.parseOk (Json.obj [("id", Json.num 3),
          ("result", Json.obj [])]))).1.requestContext 3 = none) ∧
    (3 ∉ (processLine "w" ⟨4, [3], [(3, ⟨"w", "thread/start"⟩)], [], [], ["w"], []⟩
        (.parseOk (Json.obj [("id", Json.num 3)]))).1.pending ∧
      (processLine "w" ⟨4, [3], [(3, ⟨"w", "thread/start"⟩)], [], [], ["w"], []⟩
        (.parseOk (Json.obj [("id", Json.num 3)]))).1.requestContext =
        [(3, ⟨"w", "thread/start"⟩)]) :=
  ⟨(slot_resolved_at_most_once_and_map_removal "w"
      ⟨4, [3], [(3, ⟨"w", "thread/start"⟩)], [], [], ["w"], []⟩).2.1
      (Json.obj [("id", Json.num 3), ("result", Json.obj [])]) 3 rfl rfl,
    (slot_resolved_at_most_once_and_map_removal "w"
      ⟨4, [3], [(3, ⟨"w", "thread/start"⟩)], [], [], ["w"], []⟩).2.2.1
      (Json.obj [("id", Json.num 3)]) 3 rfl rfl rfl rfl⟩

/-- Witness for C5: a server-originated request carrying an id, a method,
and the registered thread id `T` reaches only the background channel. -/
theorem background_subscriber_capture_witness :
    (processLine "w1" ⟨1, [], [], [], ["T"], ["w1"], []⟩
        (.parseOk (Json.obj [("id", Json.num 7),
          ("method", Json.str "item/agentMessage/delta"),
          ("params", Json.obj [("threadId", Json.str "T"),
            ("delta", Json.str "hi")])]))).2 =
      [.toBackground "T" (Json.obj [("id", Json.num 7),
        ("method", Json.str "item/agentMessage/delta"),
        ("params", Json.obj [("threadId", Json.str "T"),
          ("delta", Json.str "hi")])])] :=
  background_subscriber_capture "w1" ⟨1, [], [], [], ["T"], ["w1"], []⟩
    (Json.obj [("id", Json.num 7),
      ("method", Json.str "item/agentMessage/delta"),
      ("params", Json.obj [("threadId", Json.str "T"), ("delta", Json.str "hi")])])
    "T" rfl rfl rfl rfl rfl

end CodexMonitor
